import Mathlib

/-!
# yare: parser registry, dispatch and request mapping

A shallow embedding of the Go package `yare` (files `dict.go`, `parser.go`,
`http.go`, `handler.go`) and theorems about it.

Modelling conventions
* Go `string` and `[]byte` are both modelled by `String`; the conversions
  `[]byte(s)` and `string(b)` are the identity.
* A Go `error` value is `Option GoError`, `none` being `nil`.
* A Go `Dict` (`map[string]interface{}`) is an optional association list,
  `none` being the `nil` map and `some []` the empty, non-nil map.
* The two process-wide catalogs are passed explicitly, in registration order.
* Standard library and third-party parsers (`mime`, `net/url`, cookies,
  `encoding/json`, `jwt-go`) are parameters, bundled in `Stdlib` and `Codec`.
-/

namespace Yare

/-! ## Errors -/

/-- A Go error value: either an ordinary error carrying its text, or a parse
error produced by `wrapError`, carrying the text that follows the tag. -/
inductive GoError where
  | plain (text : String)
  | parse (body : String)
deriving DecidableEq, Repr

/-- The text of `ErrParse`, the fixed tag of every composite error. -/
def parseTag : String := "parse error"

/-- The method `Error()` of an error value. -/
def GoError.Error : GoError → String
  | .plain text => text
  | .parse body => parseTag ++ "," ++ body

/-- The double-quote character of CSV quoting. -/
def csvQuoteChar : Char := Char.ofNat 34

/-- CSV quoting of one field: the field between double quotes, each double
quote inside it doubled. -/
def csvQuote (text : String) : String :=
  ⟨csvQuoteChar :: (text.data.flatMap fun c => if c = csvQuoteChar then [c, c] else [c])
    ++ [csvQuoteChar]⟩

/-- The field one sub-error contributes to a composite error: the text of an
ordinary error, CSV-quoted if it contains a comma; for an error that is already
a parse error, the fields it carries, the tag not repeated (the test case
`wrapped` of `error_internal_test.go`). -/
def errorField : GoError → String
  | .plain text => if ',' ∈ text.data then csvQuote text else text
  | .parse body => body

/-- Modelled from the spec: the function `wrapError` of `error.go`, which is not
among the sources. The composite error is the fixed tag "parse error" followed
by a comma and the comma-joined, CSV-quoted texts of the sub-errors in the given
order; an empty list gives the tag with a trailing separator. -/
def wrapError (errs : List GoError) : GoError :=
  .parse (",".intercalate (errs.map errorField))

/-! ## Dict -/

/-- The dynamic values stored in a `Dict` (`interface{}` in the source). -/
inductive Value where
  | str (s : String)
  | strs (l : List String)
  | dict (d : Option (List (String × Value)))
  | bool (b : Bool)
  | int (n : Int)
  | num (text : String)
  | null
  | arr (l : List Value)

/-- The entries of a non-nil map, in insertion order. -/
abbrev Entries := List (String × Value)

/-- The type `Dict` of `dict.go`: `none` is the nil map. -/
abbrev Dict := Option Entries

/-- The assignment `out[k] = v` on a non-nil map. -/
def Entries.set : Entries → String → Value → Entries
  | [], k, v => [(k, v)]
  | (k', v') :: rest, k, v =>
    if k' = k then (k, v) :: rest else (k', v') :: Entries.set rest k v

/-- The lookup `out[k]` with its presence flag. -/
def Entries.get : Entries → String → Option Value
  | [], _ => none
  | (k', v') :: rest, k => if k' = k then some v' else Entries.get rest k

/-- The type `ParserFunc` of `parser.go`: `func([]byte) (Dict, error)`. -/
abbrev ParserFunc := String → Dict × Option GoError

/-! ## Strings -/

/-- Go `strings.HasPrefix(s, prefix)`:
`len(s) >= len(prefix) && s[:len(prefix)] == prefix`. -/
def HasPrefix (s pre : String) : Bool :=
  decide (pre.data.length ≤ s.data.length) && (s.data.take pre.data.length == pre.data)

/-- Go `strings.HasSuffix(s, suffix)`:
`len(s) >= len(suffix) && s[len(s)-len(suffix):] == suffix`. -/
def HasSuffix (s suf : String) : Bool :=
  decide (suf.data.length ≤ s.data.length) &&
    (s.data.drop (s.data.length - suf.data.length) == suf.data)

/-- Go `strings.Index(s, sep)` for a one-character separator: the position of
the first occurrence, or `-1`. -/
def Index (s : String) (sep : Char) : Int :=
  if sep ∈ s.data then (s.data.indexOf sep : Int) else -1

/-- Go `strings.SplitN(s, sep, n)` for a one-character separator and `n ≥ 0`:
at most `n` pieces, the last one being the unsplit remainder. -/
def SplitN (s : List Char) (sep : Char) : Nat → List (List Char)
  | 0 => []
  | 1 => [s]
  | n + 2 =>
    match s.span (fun c => c != sep) with
    | (pre, []) => [pre]
    | (pre, _ :: post) => pre :: SplitN post sep (n + 1)

/-! ## parser.go -/

/-- Entry of the content-type catalog. -/
structure contentType where
  main : String
  sub : String
  parser : ParserFunc

/-- Entry of the authorization-scheme catalog. -/
structure authScheme where
  scheme : String
  parser : ParserFunc

/-- The condition `err != nil || dict != nil` under which a lookup loop
returns the parser's result. -/
def decides (r : Dict × Option GoError) : Bool :=
  r.2.isSome || r.1.isSome

/-- The loop of `parseAuth` over the catalog snapshot. -/
def parseAuth (authorizations : List authScheme) (scheme credentials : String) :
    Dict × Option GoError :=
  match authorizations with
  | [] => (none, none)
  | a :: rest =>
    if a.scheme = scheme then
      if decides (a.parser credentials) then a.parser credentials
      else parseAuth rest scheme credentials
    else parseAuth rest scheme credentials

/-- The decision `idx <= 0` and the two slices `mt[:idx]`, `mt[idx+1:]` taken by
`parseContentType` on the media type `mt`. -/
def splitMediaType (mt : String) : String × String :=
  let idx := Index mt '/'
  if idx ≤ 0 then ("", "")
  else (⟨mt.data.take idx.toNat⟩, ⟨mt.data.drop (idx.toNat + 1)⟩)

/-- The source's `parseContent` condition selecting the entries whose parser is
invoked: `c.main == main && (HasPrefix(sub, c.sub) || HasSuffix(sub, c.sub))`. -/
def contentType.candidate (c : contentType) (main sub : String) : Bool :=
  decide (c.main = main) && (HasPrefix sub c.sub || HasSuffix sub c.sub)

/-- The loop of `parseContent` over the catalog snapshot. -/
def parseContentLoop (contentTypes : List contentType) (main sub content : String) :
    Dict × Option GoError :=
  match contentTypes with
  | [] => (none, none)
  | c :: rest =>
    if c.candidate main sub then
      if decides (c.parser content) then c.parser content
      else parseContentLoop rest main sub content
    else parseContentLoop rest main sub content

/-- The function `parseContentType` of `parser.go`. The standard library's
`mime.ParseMediaType` is the parameter `ParseMediaType`, giving the media type
or an error. -/
def parseContentType (ParseMediaType : String → Except GoError String) (cty : String) :
    String × String × Option GoError :=
  match ParseMediaType cty with
  | .error err => ("", "", some (wrapError [err]))
  | .ok mt => ((splitMediaType mt).1, (splitMediaType mt).2, none)

/-- The function `parseContent` of `parser.go`, over the catalog of content
types. -/
def parseContent (ParseMediaType : String → Except GoError String)
    (contentTypes : List contentType) (cty content : String) : Dict × Option GoError :=
  match parseContentType ParseMediaType cty with
  | (_, _, some err) => (none, some err)
  | (main, sub, none) => parseContentLoop contentTypes main sub content

/-- The method `ParserFunc.Optional` of `parser.go`. -/
def ParserFunc.Optional (p : ParserFunc) : ParserFunc :=
  fun input => ((p input).1, none)

/-- The two process-wide catalogs `atomicContentTypes` and `atomicAutScheme`, each
in registration order. -/
structure Registry where
  contentTypes : List contentType
  authSchemes : List authScheme

/-- The function `RegisterContentType` of `parser.go`: the catalogs after the
call, and the error returned. -/
def RegisterContentType (ParseMediaType : String → Except GoError String) (reg : Registry)
    (cty : String) (parser : ParserFunc) : Registry × Option GoError :=
  match parseContentType ParseMediaType cty with
  | (_, _, some err) => (reg, some err)
  | (main, sub, none) =>
    ({ reg with contentTypes := reg.contentTypes ++ [⟨main, sub, parser⟩] }, none)

/-- The function `RegisterAuthScheme` of `parser.go`: the catalogs after the
call. -/
def RegisterAuthScheme (reg : Registry) (scheme : String) (parser : ParserFunc) : Registry :=
  { reg with authSchemes := reg.authSchemes ++ [⟨scheme, parser⟩] }

/-! ## parser.go: the built-in parsers -/

/-- The syntax of a JSON value as the decoder of `encoding/json` reads it; a
number is its literal text. -/
inductive Json where
  | null
  | bool (b : Bool)
  | number (literal : String)
  | string (s : String)
  | array (items : List Json)
  | object (members : List (String × Json))

mutual
/-- The Go value the decoder stores in an `interface{}` when `UseNumber` is set:
a number as `json.Number`, its literal text; an object as a map, a later
member with the same name replacing an earlier one. -/
def Json.toValue : Json → Value
  | .null => Value.null
  | .bool b => Value.bool b
  | .number literal => Value.num literal
  | .string s => Value.str s
  | .array items => Value.arr (Json.toValues items)
  | .object members => Value.dict (some (Json.toEntries members []))
/-- The values of the items of an array. -/
def Json.toValues : List Json → List Value
  | [] => []
  | j :: js => j.toValue :: Json.toValues js
/-- The members of an object stored into a map, in their order. -/
def Json.toEntries : List (String × Json) → Entries → Entries
  | [], out => out
  | (k, j) :: rest, out => Json.toEntries rest (out.set k j.toValue)
end

/-- The name `encoding/json` gives the kind of a value in an
`UnmarshalTypeError`. -/
def Json.kind : Json → String
  | .null => "null"
  | .bool _ => "bool"
  | .number _ => "number"
  | .string _ => "string"
  | .array _ => "array"
  | .object _ => "object"

/-- The step `d.Decode(&out)` of `ParseJSON` on the value read, for `out` a `Dict`
made empty: an object fills the map, `null` sets it to nil, and any other
value is an `UnmarshalTypeError`. -/
def decodeDict (j : Json) : Except GoError Dict :=
  match j with
  | .object members => .ok (some (Json.toEntries members []))
  | .null => .ok none
  | other =>
    .error (GoError.plain
      ("json: cannot unmarshal " ++ other.kind ++ " into Go value of type yare.Dict"))

/-- The fields `Header` and `Claims` of a `jwt.Token`; nil claims are `none`. -/
structure Token where
  Header : Dict
  Claims : Option Entries

/-- The encoding libraries the built-in parsers and the handler rely on, as
parameters: the reading of the next JSON value of a stream by the decoder of
`encoding/json`, `json.Marshal` on a map, and `jwt.Parser.Parse` with the key
function of `ParseJWT` (token and error). -/
structure Codec where
  jsonRead : String → Except GoError Json
  jsonMarshal : Dict → Except GoError String
  jwtParse : String → Option Token × Option GoError

/-- The function `ParseJSON` of `parser.go`. -/
def ParseJSON (codec : Codec) : ParserFunc := fun input =>
  match codec.jsonRead input with
  | .error err => (none, some (wrapError [err]))
  | .ok j =>
    match decodeDict j with
    | .error err => (none, some (wrapError [err]))
    | .ok out => (out, none)

/-- The function `ParseJWT` of `parser.go`. The library returns an error whenever
the token or its claims are nil; `wrapError(err)` is taken on that error. -/
def ParseJWT (codec : Codec) : ParserFunc := fun input =>
  match codec.jwtParse input with
  | (none, err) => (none, some (wrapError err.toList))
  | (some t, err) =>
    match t.Claims with
    | none => (none, some (wrapError err.toList))
    | some claims =>
      let data : String :=
        match codec.jsonMarshal (some claims) with
        | .ok text => text
        | .error _ => ""
      (some [("header", Value.dict t.Header), ("payload", Value.dict (ParseJSON codec data).1),
        ("verified", Value.bool false)], none)

/-- The registrations of `init` in `cmd/yare/main.go`, on empty catalogs. -/
def applicationRegistry (P : String → Except GoError String) (codec : Codec) : Registry :=
  RegisterAuthScheme
    (RegisterContentType P
      (RegisterContentType P ⟨[], []⟩ "application/json" (ParseJSON codec)).1
      "application/jwt" (ParseJWT codec)).1
    "Bearer" (ParseJWT codec).Optional

/-! ## parser.go: the catalogs under concurrent goroutines -/

/-- The shared state of one catalog: whether its mutex (`contentTypeMu`,
`authSchemeMu`) is held, and the slice published in its `atomic.Value`. -/
structure Shared (α : Type) where
  locked : Bool
  snapshot : List α

/-- The state of a goroutine inside a registration or a lookup: the number of
synchronisation steps it has taken, and the slice it has loaded. -/
structure Local (α : Type) where
  pc : Nat
  values : List α

/-- One step of a registration of `entry` (lines 73 to 76 and 83 to 86 of
`parser.go`): `Lock`, `Load`, `Store(append(values, entry))`, `Unlock`. The
result is `none` when the goroutine cannot step: it waits for the mutex, or it
has finished. -/
def registerStep {α : Type} (entry : α) (sh : Shared α) (loc : Local α) :
    Option (Shared α × Local α) :=
  match loc.pc with
  | 0 => if sh.locked then none else some ({ sh with locked := true }, { loc with pc := 1 })
  | 1 => some (sh, { pc := 2, values := sh.snapshot })
  | 2 => some ({ sh with snapshot := loc.values ++ [entry] }, { loc with pc := 3 })
  | 3 => some ({ sh with locked := false }, { loc with pc := 4 })
  | _ => none

/-- One step of the head of a lookup (lines 132 to 134 and 148 to 150 of
`parser.go`): `Lock`, `Load`, `Unlock`; after them the loop runs over the loaded
slice. The result is `none` when the goroutine cannot step. -/
def lookupStep {α : Type} (sh : Shared α) (loc : Local α) : Option (Shared α × Local α) :=
  match loc.pc with
  | 0 => if sh.locked then none else some ({ sh with locked := true }, { loc with pc := 1 })
  | 1 => some (sh, { pc := 2, values := sh.snapshot })
  | 2 => some ({ sh with locked := false }, { loc with pc := 3 })
  | _ => none

/-- A registration and a lookup running concurrently on one catalog. -/
structure System (α : Type) where
  shared : Shared α
  reg : Local α
  look : Local α

/-- The state before either goroutine has taken a step, on the catalog `cat`. -/
def System.start {α : Type} (cat : List α) : System α :=
  ⟨⟨false, cat⟩, ⟨0, []⟩, ⟨0, []⟩⟩

/-- The scheduler gives a step to the registration (`true`) or to the lookup
(`false`); a goroutine that cannot step leaves the state unchanged. -/
def System.step {α : Type} (entry : α) (s : System α) (who : Bool) : System α :=
  if who then
    match registerStep entry s.shared s.reg with
    | some (sh, loc) => { s with shared := sh, reg := loc }
    | none => s
  else
    match lookupStep s.shared s.look with
    | some (sh, loc) => { s with shared := sh, look := loc }
    | none => s

/-- The state after a schedule, an interleaving of the two goroutines. -/
def System.run {α : Type} (entry : α) (schedule : List Bool) (s : System α) : System α :=
  schedule.foldl (System.step entry) s

/-- The invariant of a registration of `entry` on `cat` running next to a
lookup. -/
def Consistent {α : Type} (cat : List α) (entry : α) (s : System α) : Prop :=
  (s.shared.snapshot = cat ∨ s.shared.snapshot = cat ++ [entry]) ∧
  (s.reg.pc ≤ 2 → s.shared.snapshot = cat) ∧
  (s.reg.pc = 2 → s.reg.values = cat) ∧
  (3 ≤ s.reg.pc → s.shared.snapshot = cat ++ [entry]) ∧
  (2 ≤ s.look.pc → s.look.values = cat ∨ s.look.values = cat ++ [entry])

/-! ## dict.go and http.go -/

/-- The function `MapValues` of `dict.go`; the multimap is given by its entries,
`none` being the nil map. -/
def MapValues (input : Option (List (String × List String))) : Dict :=
  match input with
  | none => some []
  | some m =>
    some (m.foldl
      (fun out kv => if kv.2.length = 1 then out.set kv.1 (Value.str (kv.2.headD ""))
        else out.set kv.1 (Value.strs kv.2))
      [])

/-- The function `omitEmpty` of `http.go`. -/
def omitEmpty (d : Dict) : Dict :=
  match d with
  | none => none
  | some es => if es.length = 0 then none else some es

/-- The function `parseAuthorizationHeader` of `http.go`, over the catalog of
authorization schemes. -/
def parseAuthorizationHeader (authorizations : List authScheme) (hdr : String) :
    Dict × Option GoError :=
  if hdr.length = 0 then (none, none)
  else
    let f := SplitN hdr.data ' ' 2
    let scheme : String := ⟨f.getD 0 []⟩
    let credentials : String := if f.length > 1 then ⟨f.getD 1 []⟩ else ""
    match parseAuth authorizations scheme credentials with
    | (_, some err) => (none, some err)
    | (v, none) =>
      match omitEmpty v with
      | none => (some [(scheme, Value.str credentials)], none)
      | some es => (some [(scheme, Value.dict (some es))], none)

/-- The scheme as the spec words it: the part of the header before its first
space, the whole header when it has no space. -/
def headerScheme (hdr : String) : String :=
  ⟨hdr.data.takeWhile fun c => c != ' '⟩

/-- The credentials as the spec words them: everything after the first space of
the header, the empty string when it has no space. -/
def headerCredentials (hdr : String) : String :=
  ⟨(hdr.data.dropWhile fun c => c != ' ').drop 1⟩

/-- The value `parseAuthorizationHeader` stores under the scheme: the parsed
dict, or the raw credentials when `omitEmpty` of the dict is nil. -/
def authorizationValue (v : Dict) (credentials : String) : Value :=
  match omitEmpty v with
  | none => Value.str credentials
  | some es => Value.dict (some es)

/-- The value `MapValues` stores for a key with the value list `v`. -/
def collapse (v : List String) : Value :=
  if v.length = 1 then Value.str (v.headD "") else Value.strs v

/-- The composite text as the spec words it: the tag, a comma, and the
comma-joined texts of the errors, a text containing a comma CSV-quoted. -/
def compositeText (errs : List GoError) : String :=
  parseTag ++ "," ++
    ",".intercalate (errs.map fun e => if ',' ∈ e.Error.data then csvQuote e.Error else e.Error)

/-! ## Requests: the parts of `net/http`, `net/url` and `io` the package uses -/

/-- The entries of a `map[string][]string` (`http.Header`, `url.Values`). -/
abbrev Multimap := List (String × List String)

/-- The fields `Name` and `Value` of an `http.Cookie`. -/
structure Cookie where
  Name : String
  Value : String

/-- The state of an `io.ReadCloser`: the bytes it still delivers, and the error
it reports after them, `none` for a stream that ends with `io.EOF`. -/
structure Reader where
  data : String
  err : Option GoError

/-- The fields of an `http.Request` that `MapRequest` reads or writes; `Path` and
`RawQuery` are those of `r.URL`. A nil map is `none`. The URL and the body are
present, as they are for every request a server hands to a handler. -/
structure Request where
  Method : String
  Proto : String
  Header : Option Multimap
  Path : String
  RawQuery : String
  Body : Reader
  PostForm : Option Multimap
  Form : Option Multimap

/-- The standard library parsers the package relies on, as parameters:
`mime.ParseMediaType` (media type and error), `url.ParseQuery` (values and first
error) and the cookie parser behind `Request.Cookies`. -/
structure Stdlib where
  ParseMediaType : String → String × Option GoError
  ParseQuery : String → Multimap × Option GoError
  readCookies : Option Multimap → List Cookie

/-- The use `mt, _, err := mime.ParseMediaType(cty)` followed by `err != nil` made
by `parseContentType`: the media type, or the error. -/
def Stdlib.mediaType (std : Stdlib) (cty : String) : Except GoError String :=
  match std.ParseMediaType cty with
  | (_, some err) => .error err
  | (mt, none) => .ok mt

/-- Go `Header.Get(key)` for a key in canonical form, as `Authorization` and
`Content-Type` are: the first value stored under the key, or the empty string. -/
def headerGet (h : Option Multimap) (key : String) : String :=
  match h with
  | none => ""
  | some m =>
    match m.lookup key with
    | some (v :: _) => v
    | _ => ""

/-- Go `ioutil.ReadAll(r)`: the bytes read and the error, `none` at `io.EOF`. -/
def ReadAll (r : Reader) : String × Option GoError := (r.data, r.err)

/-- The stream after it has been read to its end. -/
def Reader.drained (r : Reader) : Reader := ⟨"", r.err⟩

/-- Go `ioutil.ReadAll(io.LimitReader(r, n))`: the bytes read, the error, and
the stream afterwards. -/
def readAllLimit (r : Reader) (n : Nat) : String × Option GoError × Reader :=
  if n ≤ r.data.length then (⟨r.data.data.take n⟩, none, ⟨⟨r.data.data.drop n⟩, r.err⟩)
  else (r.data, r.err, r.drained)

/-- The assignment `m[k] = v` on a `map[string][]string`. -/
def Multimap.set : Multimap → String → List String → Multimap
  | [], k, v => [(k, v)]
  | (k', v') :: rest, k, v =>
    if k' = k then (k, v) :: rest else (k', v') :: Multimap.set rest k v

/-- The function `copyValues` of `net/http`: `dst[k] = append(dst[k], vs...)`. -/
def copyValues (dst src : Multimap) : Multimap :=
  src.foldl (fun d kv => Multimap.set d kv.1 ((d.lookup kv.1).getD [] ++ kv.2)) dst

/-- The statement `if err == nil { err = e }`. -/
def firstErr (err e : Option GoError) : Option GoError :=
  match err with
  | some x => some x
  | none => e

/-- The constant `10 << 20` of `parsePostForm`. -/
def maxFormSize : Nat := 10 * 2 ^ 20

/-- The function `parsePostForm` of `net/http`, for a request with a body that is
not a `maxBytesReader`: the values, the error and the body stream afterwards. -/
def parsePostForm (std : Stdlib) (r : Request) : Option Multimap × Option GoError × Reader :=
  let ct := headerGet r.Header "Content-Type"
  let parsed := std.ParseMediaType (if ct = "" then "application/octet-stream" else ct)
  if parsed.1 = "application/x-www-form-urlencoded" then
    match readAllLimit r.Body (maxFormSize + 1) with
    | (_, some e, rest) => (none, firstErr parsed.2 (some e), rest)
    | (b, none, rest) =>
      if b.length > maxFormSize then (none, some (GoError.plain "http: POST too large"), rest)
      else (some (std.ParseQuery b).1, firstErr parsed.2 (std.ParseQuery b).2, rest)
  else (none, parsed.2, r.Body)

/-- The `PostForm` part of the method `Request.ParseForm` of `net/http`. -/
def parseFormPost (std : Stdlib) (r : Request) : Request × Option GoError :=
  match r.PostForm with
  | some _ => (r, none)
  | none =>
    if r.Method = "POST" ∨ r.Method = "PUT" ∨ r.Method = "PATCH" then
      ({ r with PostForm := some ((parsePostForm std r).1.getD []),
                Body := (parsePostForm std r).2.2 }, (parsePostForm std r).2.1)
    else ({ r with PostForm := some [] }, none)

/-- The method `Request.ParseForm` of `net/http`: the request afterwards and the
error returned. -/
def ParseForm (std : Stdlib) (r : Request) : Request × Option GoError :=
  let r1 := (parseFormPost std r).1
  let err := (parseFormPost std r).2
  match r1.Form with
  | some _ => (r1, err)
  | none =>
    let q := std.ParseQuery r1.RawQuery
    let form : Multimap :=
      if (r1.PostForm.getD []).length > 0 then copyValues (copyValues [] (r1.PostForm.getD [])) q.1
      else q.1
    ({ r1 with Form := some form }, firstErr err q.2)

/-! ## http.go: bodies and requests -/

/-- The function `wrapReader` of `http.go`: the error, or the fresh stream and
the data. -/
def wrapReader (r : Reader) : Except GoError (Reader × String) :=
  match ReadAll r with
  | (_, some err) => .error (wrapError [err])
  | (data, none) => .ok (⟨data, none⟩, data)

/-- The function `parseRequestBody` of `http.go`: its result, and the request
afterwards. -/
def parseRequestBody (P : String → Except GoError String) (contentTypes : List contentType)
    (r : Request) : (Dict × Option GoError) × Request :=
  match wrapReader r.Body with
  | .error err => ((none, some err), { r with Body := r.Body.drained })
  | .ok (reader, body) =>
    if body.length = 0 then ((none, none), { r with Body := reader })
    else
      match parseContent P contentTypes (headerGet r.Header "Content-Type") body with
      | (_, some err) => ((none, some err), { r with Body := reader })
      | (out, none) => ((omitEmpty out, none), { r with Body := reader })

/-- The function `mapCookies` of `http.go`. -/
def mapCookies (cookies : List Cookie) : Dict :=
  if cookies.length = 0 then some []
  else some (cookies.foldl (fun out c => Entries.set out c.Name (Value.str c.Value)) [])

/-- The statement `if d != nil { out[key] = d }`. -/
def setSection (out : Entries) (key : String) (d : Dict) : Entries :=
  match d with
  | none => out
  | some es => out.set key (Value.dict (some es))

/-- Lines 37 to 60 of `MapRequest`: version, method, headers, cookies, path and
query. -/
def requestBase (std : Stdlib) (r : Request) : Entries :=
  let out : Entries := []
  let out := out.set "version" (Value.str r.Proto)
  let out := out.set "method" (Value.str r.Method)
  let out := setSection out "headers" (omitEmpty (MapValues r.Header))
  let out := setSection out "cookies" (omitEmpty (mapCookies (std.readCookies r.Header)))
  let out := out.set "path" (Value.str r.Path)
  setSection out "query" (omitEmpty (MapValues (some (std.ParseQuery r.RawQuery).1)))

/-- Lines 62 to 68 of `MapRequest`: the form step. -/
def mapForm (std : Stdlib) (r : Request) (out : Entries) (errs : List GoError) :
    Entries × List GoError × Request :=
  match ParseForm std r with
  | (r1, none) => (setSection out "form" (omitEmpty (MapValues r1.PostForm)), errs, r1)
  | (r1, some err) => (out, errs ++ [err], r1)

/-- Lines 70 to 79 of `MapRequest`: the body step. -/
def mapBody (P : String → Except GoError String) (contentTypes : List contentType)
    (body : Bool) (r : Request) (out : Entries) (errs : List GoError) :
    Entries × List GoError × Request :=
  if body then
    match parseRequestBody P contentTypes r with
    | ((v, none), r2) => (setSection out "body" v, errs, r2)
    | ((_, some err), r2) => (out, errs ++ [err], r2)
  else (out, errs, r)

/-- Lines 81 to 88 of `MapRequest`: the authorization step. -/
def mapAuthorization (authorizations : List authScheme) (r : Request) (out : Entries)
    (errs : List GoError) : Entries × List GoError :=
  match parseAuthorizationHeader authorizations (headerGet r.Header "Authorization") with
  | (v, none) => (setSection out "authorization" v, errs)
  | (_, some err) => (out, errs ++ [err])

/-- The function `MapRequest` of `http.go`: its result, and the request
afterwards. -/
def MapRequest (std : Stdlib) (reg : Registry) (r : Request) (body : Bool) :
    (Dict × Option GoError) × Request :=
  let s1 := mapForm std r (requestBase std r) []
  let s2 := mapBody std.mediaType reg.contentTypes body s1.2.2 s1.1 s1.2.1
  let s3 := mapAuthorization reg.authSchemes s2.2.2 s2.1 s2.2.1
  if s3.2.length > 0 then ((some s3.1, some (wrapError s3.2)), s2.2.2)
  else ((some s3.1, none), s2.2.2)

/-! ## http.go: responses -/

/-- The fields of an `http.Response` that `MapResponse` reads or writes. -/
structure Response where
  Proto : String
  StatusCode : Int
  Header : Option Multimap
  Body : Reader

/-- The function `parseResponseBody` of `http.go`: its result, and the response
afterwards. -/
def parseResponseBody (P : String → Except GoError String) (contentTypes : List contentType)
    (r : Response) : (Dict × Option GoError) × Response :=
  match wrapReader r.Body with
  | .error err => ((none, some err), { r with Body := r.Body.drained })
  | .ok (reader, body) =>
    match parseContent P contentTypes (headerGet r.Header "Content-Type") body with
    | (_, some err) => ((none, some err), { r with Body := reader })
    | (out, none) => ((omitEmpty out, none), { r with Body := reader })

/-- Lines 99 to 114 of `MapResponse`: version, status, headers and cookies;
`readSetCookies` is the cookie parser behind `Response.Cookies`. -/
def responseBase (readSetCookies : Option Multimap → List Cookie) (r : Response) : Entries :=
  let out : Entries := []
  let out := out.set "version" (Value.str r.Proto)
  let out := out.set "status" (Value.int r.StatusCode)
  let out := setSection out "headers" (omitEmpty (MapValues r.Header))
  setSection out "cookies" (omitEmpty (mapCookies (readSetCookies r.Header)))

/-- Lines 116 to 125 of `MapResponse`: the body step. -/
def mapResponseBody (P : String → Except GoError String) (contentTypes : List contentType)
    (body : Bool) (r : Response) (out : Entries) (errs : List GoError) :
    Entries × List GoError × Response :=
  if body then
    match parseResponseBody P contentTypes r with
    | ((v, none), r2) => (setSection out "body" v, errs, r2)
    | ((_, some err), r2) => (out, errs ++ [err], r2)
  else (out, errs, r)

/-- The function `MapResponse` of `http.go`: its result, and the response
afterwards. -/
def MapResponse (std : Stdlib) (readSetCookies : Option Multimap → List Cookie)
    (reg : Registry) (r : Response) (body : Bool) : (Dict × Option GoError) × Response :=
  let s := mapResponseBody std.mediaType reg.contentTypes body r (responseBase readSetCookies r) []
  if s.2.1.length > 0 then ((some s.1, some (wrapError s.2.1)), s.2.2)
  else ((some s.1, none), s.2.2)

/-! ## handler.go -/

/-- The type `handler` of `handler.go`. -/
structure handler where
  body : Bool

/-- What a handler has written to its `http.ResponseWriter`: the status code,
the header map and the body. -/
structure ResponseRecorder where
  Code : Int
  Header : Multimap
  Body : String

/-- Go `Header.Add(key, value)` for a key in canonical form. -/
def headerAdd (h : Multimap) (key value : String) : Multimap :=
  Multimap.set h key ((h.lookup key).getD [] ++ [value])

/-- Go `Header.Set(key, value)` for a key in canonical form. -/
def headerSet (h : Multimap) (key value : String) : Multimap :=
  Multimap.set h key [value]

/-- The function `addError` of `handler.go`. -/
def addError (w : ResponseRecorder) (err : GoError) : ResponseRecorder :=
  { w with Header := headerAdd w.Header "X-Error" err.Error }

/-- The method `ServeHTTP` of `handler.go`, writing to the response writer `w`. -/
def handler.ServeHTTP (std : Stdlib) (codec : Codec) (reg : Registry) (h : handler)
    (w : ResponseRecorder) (r : Request) : ResponseRecorder :=
  let res := (MapRequest std reg r h.body).1
  let status : Int := if res.2.isSome then 400 else 200
  let w1 := match res.2 with
    | some err => addError w err
    | none => w
  match res.1 with
  | none => { w1 with Code := 204 }
  | some d =>
    match codec.jsonMarshal (some d) with
    | .ok data =>
      { w1 with Header := headerSet w1.Header "Content-Type" "application/json; charset=utf-8",
                Code := status, Body := w1.Body ++ data }
    | .error err => { addError w1 (wrapError [err]) with Code := 500 }

/-- The errors of the failing steps as the spec words them, in collection order:
form parsing, body dispatch (only when the body flag is true) and authorization
dispatch. -/
def collectedErrors (std : Stdlib) (reg : Registry) (r : Request) (body : Bool) :
    List GoError :=
  (ParseForm std r).2.toList ++
    (if body then
        (parseRequestBody std.mediaType reg.contentTypes (ParseForm std r).1).1.2.toList
      else []) ++
    (parseAuthorizationHeader reg.authSchemes (headerGet r.Header "Authorization")).2.toList

/-- The value stored for a section whose dict is non-nil, and no value for nil. -/
def sectionValue (d : Dict) : Option Value :=
  d.map fun es => Value.dict (some es)

/-- The entries of the dict `out` at the end of `MapRequest`. -/
def requestEntries (std : Stdlib) (reg : Registry) (r : Request) (body : Bool) : Entries :=
  let s1 := mapForm std r (requestBase std r) []
  let s2 := mapBody std.mediaType reg.contentTypes body s1.2.2 s1.1 s1.2.1
  (mapAuthorization reg.authSchemes s2.2.2 s2.1 s2.2.1).1

/-- The media type `parsePostForm` compares with
`application/x-www-form-urlencoded`: that of the `Content-Type` header, of
`application/octet-stream` when the header is empty. -/
def formMediaType (std : Stdlib) (r : Request) : String :=
  (std.ParseMediaType
    (if headerGet r.Header "Content-Type" = "" then "application/octet-stream"
     else headerGet r.Header "Content-Type")).1

/-- The condition under which `ParseForm` reads the body of the request: no
`PostForm` yet, the method `POST`, `PUT` or `PATCH`, and the media type
`application/x-www-form-urlencoded`. -/
def formReadsBody (std : Stdlib) (r : Request) : Prop :=
  r.PostForm = none ∧ (r.Method = "POST" ∨ r.Method = "PUT" ∨ r.Method = "PATCH") ∧
    formMediaType std r = "application/x-www-form-urlencoded"

/-! ## Test fixtures (`parser_internal_test.go`, `error_internal_test.go`) -/

/-- The test parser returning `Dict{"dummy": string(in)}`. -/
def dummmyParser : ParserFunc := fun input => (some [("dummy", Value.str input)], none)

/-- The test parser returning `(nil, nil)`. -/
def nopParser : ParserFunc := fun _ => (none, none)

/-- The test error `errDummy`. -/
def errDummy : GoError := GoError.plain "dummy"

/-- The test error `errFoo`. -/
def errFoo : GoError := GoError.plain "foo"

/-- The test error `errWithComma`. -/
def errWithComma : GoError := GoError.plain "foo,bar"

/-- The test parser returning `(nil, errDummy)`. -/
def errParser : ParserFunc := fun _ => (none, some errDummy)

/-- A parser returning the empty, non-nil dict. -/
def emptyParser : ParserFunc := fun _ => (some [], none)

/-- A media-type parser for the examples: it accepts a string made of letters,
digits and the characters `/`, `+`, `-`, `.`, `_` as its own media type and
rejects every other string, the empty one included. -/
def sampleMediaType (v : String) : Except GoError String :=
  if v.length ≠ 0 ∧ v.data.all (fun c => c.isAlphanum || c ∈ ['/', '+', '-', '.', '_']) then .ok v
  else .error (GoError.plain "mime: no media type")

/-- A query parser for the examples: on a string of letters, digits, `=` and `&`
it gives the values of `url.ParseQuery`, and it rejects every other string. -/
def sampleParseQuery (q : String) : Multimap × Option GoError :=
  if q.data.all (fun c => c.isAlphanum || c == '=' || c == '&') then
    ((q.data.splitOn '&').foldl
      (fun m seg =>
        if seg.length = 0 then m
        else
          let kv := SplitN seg '=' 2
          Multimap.set m ⟨kv.getD 0 []⟩ ((m.lookup ⟨kv.getD 0 []⟩).getD [] ++ [⟨kv.getD 1 []⟩]))
      [], none)
  else ([], some (GoError.plain "invalid URL escape"))

/-- A cookie parser for the examples: each line `name=value` of the `Cookie`
header gives one cookie. -/
def sampleReadCookies (h : Option Multimap) : List Cookie :=
  (((h.getD []).lookup "Cookie").getD []).map fun line =>
    ⟨⟨(SplitN line.data '=' 2).getD 0 []⟩, ⟨(SplitN line.data '=' 2).getD 1 []⟩⟩

/-- The standard library parsers used in the examples. -/
def sampleStd : Stdlib where
  ParseMediaType v :=
    match sampleMediaType v with
    | .ok mt => (mt, none)
    | .error e => ("", some e)
  ParseQuery := sampleParseQuery
  readCookies := sampleReadCookies

/-- The request built by `httptest.NewRequest(method, "http://localhost/" + "?" +
query, body)` with the given headers. -/
def newRequest (method query : String) (header : Multimap) (body : String) : Request where
  Method := method
  Proto := "HTTP/1.1"
  Header := some header
  Path := "/"
  RawQuery := query
  Body := ⟨body, none⟩
  PostForm := none
  Form := none

/-- A request as `newRequest` builds it, over a body stream that delivers `body`
and then fails with `err`. -/
def newFailingRequest (method query : String) (header : Multimap) (body : String)
    (err : GoError) : Request :=
  { newRequest method query header body with Body := ⟨body, some err⟩ }

/-- The opening brace. -/
def lbrace : Char := Char.ofNat 123

/-- The closing brace. -/
def rbrace : Char := Char.ofNat 125

/-- The input without its leading JSON white space. -/
def skipSpace (cs : List Char) : List Char :=
  cs.dropWhile fun c => c == ' ' || c == '\n' || c == '\t' || c == '\r'

/-- A JSON string without escapes, read after its opening quote. -/
def readString (cs : List Char) : Option (String × List Char) :=
  match cs.span (fun c => c != csvQuoteChar) with
  | (text, _ :: rest) => if '\\' ∈ text then none else some (⟨text⟩, rest)
  | (_, []) => none

mutual
/-- A JSON reader for the examples, by recursive descent with a bound on the
depth: it reads one value at the start of the input, strings without escapes,
and a number as the longest run of number characters. -/
def readValue : Nat → List Char → Option (Json × List Char)
  | 0, _ => none
  | n + 1, cs =>
    match skipSpace cs with
    | [] => none
    | c :: rest =>
      if c = csvQuoteChar then (readString rest).map fun r => (Json.string r.1, r.2)
      else if c = '[' then
        match skipSpace rest with
        | ']' :: rest1 => some (Json.array [], rest1)
        | _ => (readItems n rest).map fun r => (Json.array r.1, r.2)
      else if c = lbrace then
        if (skipSpace rest).head? = some rbrace then some (Json.object [], (skipSpace rest).drop 1)
        else (readMembers n rest).map fun r => (Json.object r.1, r.2)
      else if (c :: rest).take 4 = "null".data then some (Json.null, rest.drop 3)
      else if (c :: rest).take 4 = "true".data then some (Json.bool true, rest.drop 3)
      else if (c :: rest).take 5 = "false".data then some (Json.bool false, rest.drop 4)
      else if c.isDigit || c == '-' then
        some (Json.number
            ⟨(c :: rest).takeWhile fun d => d.isDigit || d ∈ ['-', '+', '.', 'e', 'E']⟩,
          (c :: rest).dropWhile fun d => d.isDigit || d ∈ ['-', '+', '.', 'e', 'E'])
      else none
/-- The items of an array, read after its opening bracket. -/
def readItems : Nat → List Char → Option (List Json × List Char)
  | 0, _ => none
  | n + 1, cs =>
    match readValue n cs with
    | none => none
    | some (j, rest) =>
      match skipSpace rest with
      | ',' :: rest1 => (readItems n rest1).map fun r => (j :: r.1, r.2)
      | ']' :: rest1 => some ([j], rest1)
      | _ => none
/-- The members of an object, read after its opening brace. -/
def readMembers : Nat → List Char → Option (List (String × Json) × List Char)
  | 0, _ => none
  | n + 1, cs =>
    match skipSpace cs with
    | [] => none
    | c :: rest =>
      if c = csvQuoteChar then
        match readString rest with
        | none => none
        | some (k, rest1) =>
          match skipSpace rest1 with
          | ':' :: rest2 =>
            match readValue n rest2 with
            | none => none
            | some (j, rest3) =>
              match skipSpace rest3 with
              | [] => none
              | d :: rest4 =>
                if d = ',' then (readMembers n rest4).map fun r => ((k, j) :: r.1, r.2)
                else if d = rbrace then some ([(k, j)], rest4)
                else none
          | _ => none
      else none
end

/-- The JSON reader of the examples as a decoder step. -/
def sampleJsonRead (input : String) : Except GoError Json :=
  match readValue input.length input.data with
  | some (j, _) => .ok j
  | none => .error (GoError.plain "invalid character")

mutual
/-- A JSON writer for the examples: members in the order of the entries, strings
without escaping. -/
def Value.render : Value → String
  | .str s => String.singleton csvQuoteChar ++ s ++ String.singleton csvQuoteChar
  | .strs l =>
    "[" ++ ",".intercalate
      (l.map fun s => String.singleton csvQuoteChar ++ s ++ String.singleton csvQuoteChar) ++ "]"
  | .dict none => "null"
  | .dict (some es) => String.singleton lbrace ++ renderEntries es ++ String.singleton rbrace
  | .bool b => if b then "true" else "false"
  | .int n => toString n
  | .num text => text
  | .null => "null"
  | .arr l => "[" ++ renderItems l ++ "]"
/-- The members of an object, comma-separated. -/
def renderEntries : List (String × Value) → String
  | [] => ""
  | [(k, v)] => String.singleton csvQuoteChar ++ k ++ String.singleton csvQuoteChar ++ ":" ++ v.render
  | (k, v) :: rest =>
    String.singleton csvQuoteChar ++ k ++ String.singleton csvQuoteChar ++ ":" ++ v.render ++ "," ++
      renderEntries rest
/-- The items of an array, comma-separated. -/
def renderItems : List Value → String
  | [] => ""
  | [v] => v.render
  | v :: rest => v.render ++ "," ++ renderItems rest
end

/-- A token parser for the examples: a string that does not have three
dot-separated segments gives no token, as in the library; every other string
is taken as a token whose header segment cannot be decoded. -/
def sampleJwtParse (input : String) : Option Token × Option GoError :=
  if (input.data.splitOn '.').length = 3 then
    (some ⟨none, none⟩, some (GoError.plain "illegal base64 data"))
  else (none, some (GoError.plain "token contains an invalid number of segments"))

/-- The encoding libraries used in the examples. -/
def sampleCodec : Codec where
  jsonRead := sampleJsonRead
  jsonMarshal d := .ok (Value.dict d).render
  jwtParse := sampleJwtParse

/-- The test parser of `Test_parseRequestBody` and `Test_parseResponseBody`, which
rejects the empty input. -/
def strictParser : ParserFunc := fun input =>
  if input.length = 0 then (none, some errDummy)
  else (some [("dummy", Value.str input)], none)

/-- The recorder built by `httptest.NewRecorder()`. -/
def NewRecorder : ResponseRecorder := ⟨200, [], ""⟩

end Yare

/-! # Theorems -/

namespace Yare

/-! ## Shared lemmas -/

theorem decides_eq_false_iff (r : Dict × Option GoError) :
    decides r = false ↔ r = (none, none) := by
  obtain ⟨d, e⟩ := r
  cases d <;> cases e <;> simp [decides]

theorem decides_eq_true_iff (r : Dict × Option GoError) :
    decides r = true ↔ (r.1 ≠ none ∨ r.2 ≠ none) := by
  obtain ⟨d, e⟩ := r
  cases d <;> cases e <;> simp [decides]

theorem not_decides_of_eq {r : Dict × Option GoError} (h : r = (none, none)) :
    decides r = false := (decides_eq_false_iff r).2 h

theorem hasPrefix_iff (s pre : String) : HasPrefix s pre = true ↔ ∃ x : String, s = pre ++ x := by
  constructor
  · intro h
    simp only [HasPrefix, Bool.and_eq_true, decide_eq_true_eq, beq_iff_eq] at h
    refine ⟨⟨s.data.drop pre.data.length⟩, ?_⟩
    apply String.ext
    rw [String.data_append]
    conv_lhs => rw [← List.take_append_drop pre.data.length s.data]
    rw [h.2]
  · rintro ⟨x, rfl⟩
    simp [HasPrefix, String.data_append]

theorem hasSuffix_iff (s suf : String) : HasSuffix s suf = true ↔ ∃ x : String, s = x ++ suf := by
  constructor
  · intro h
    simp only [HasSuffix, Bool.and_eq_true, decide_eq_true_eq, beq_iff_eq] at h
    refine ⟨⟨s.data.take (s.data.length - suf.data.length)⟩, ?_⟩
    apply String.ext
    rw [String.data_append]
    conv_lhs => rw [← List.take_append_drop (s.data.length - suf.data.length) s.data]
    rw [h.2]
  · rintro ⟨x, rfl⟩
    simp [HasSuffix, String.data_append]

theorem parseAuth_skip (pre post : List authScheme) (scheme credentials : String)
    (h : ∀ b ∈ pre, b.scheme = scheme → b.parser credentials = (none, none)) :
    parseAuth (pre ++ post) scheme credentials = parseAuth post scheme credentials := by
  induction pre with
  | nil => rfl
  | cons b pre ih =>
    have hb := h b (List.mem_cons_self _ _)
    have ih' := ih (fun x hx => h x (List.mem_cons_of_mem _ hx))
    simp only [List.cons_append, parseAuth]
    by_cases hs : b.scheme = scheme
    · simp [hs, not_decides_of_eq (hb hs), ih']
    · simp [hs, ih']

theorem parseAuth_drop (pre : List authScheme) (b : authScheme) (post : List authScheme)
    (scheme credentials : String) (hb : b.scheme ≠ scheme) :
    parseAuth (pre ++ b :: post) scheme credentials
      = parseAuth (pre ++ post) scheme credentials := by
  induction pre with
  | nil => simp [parseAuth, hb]
  | cons a pre ih =>
    rw [List.cons_append, List.cons_append, parseAuth, ih]
    conv_rhs => rw [parseAuth]

theorem parseContentLoop_skip (pre post : List contentType) (main sub content : String)
    (h : ∀ b ∈ pre, b.candidate main sub = true → b.parser content = (none, none)) :
    parseContentLoop (pre ++ post) main sub content
      = parseContentLoop post main sub content := by
  induction pre with
  | nil => rfl
  | cons b pre ih =>
    have hb := h b (List.mem_cons_self _ _)
    have ih' := ih (fun x hx => h x (List.mem_cons_of_mem _ hx))
    simp only [List.cons_append, parseContentLoop]
    by_cases hs : b.candidate main sub = true
    · simp [hs, not_decides_of_eq (hb hs), ih']
    · simp [hs, ih']

theorem parseContentLoop_drop (pre : List contentType) (b : contentType)
    (post : List contentType) (main sub content : String) (hb : b.candidate main sub = false) :
    parseContentLoop (pre ++ b :: post) main sub content
      = parseContentLoop (pre ++ post) main sub content := by
  induction pre with
  | nil => simp [parseContentLoop, hb]
  | cons a pre ih =>
    rw [List.cons_append, List.cons_append, parseContentLoop, ih]
    conv_rhs => rw [parseContentLoop]

theorem parseContent_of_type (P : String → Except GoError String) (cat : List contentType)
    (cty content main sub : String) (h : parseContentType P cty = (main, sub, none)) :
    parseContent P cat cty content = parseContentLoop cat main sub content := by
  simp [parseContent, h]

theorem parseAuth_eq_find (cat : List authScheme) (scheme credentials : String) :
    parseAuth cat scheme credentials
      = (((cat.filter fun a => decide (a.scheme = scheme)).map
          fun a => a.parser credentials).find? decides).getD (none, none) := by
  induction cat with
  | nil => rfl
  | cons a cat ih =>
    rw [parseAuth, ih]
    by_cases hs : a.scheme = scheme
    · by_cases hd : decides (a.parser credentials) = true
      · simp [hs, hd, List.filter_cons, List.find?_cons]
      · simp [hs, hd, List.filter_cons, List.find?_cons]
    · simp [hs, List.filter_cons]

theorem parseContentLoop_eq_find (cat : List contentType) (main sub content : String) :
    parseContentLoop cat main sub content
      = (((cat.filter fun c => c.candidate main sub).map
          fun c => c.parser content).find? decides).getD (none, none) := by
  induction cat with
  | nil => rfl
  | cons c cat ih =>
    rw [parseContentLoop, ih]
    by_cases hs : c.candidate main sub = true
    · by_cases hd : decides (c.parser content) = true
      · simp [hs, hd, List.filter_cons, List.find?_cons]
      · simp [hs, hd, List.filter_cons, List.find?_cons]
    · simp [hs, List.filter_cons]

/-! ## C1: first match wins in `parseContent` -/

/-- C1: for every catalog, every content-type string that parses to `(main, sub)`
and every content, `parseContent` returns the result of the earliest-registered
entry that matches `(main, sub)` and whose parser returns a non-nil dict or a
non-nil error. Matching entries whose parser returns `(nil, nil)` are skipped,
and when no entry decides the result is `(nil, nil)`. -/
theorem parseContent_first_match (P : String → Except GoError String)
    (cat : List contentType) (cty content main sub : String)
    (hty : parseContentType P cty = (main, sub, none)) :
    parseContent P cat cty content
        = (((cat.filter fun c => c.candidate main sub).map
            fun c => c.parser content).find? decides).getD (none, none) ∧
    ((∀ c ∈ cat, c.candidate main sub = true → c.parser content = (none, none)) →
        parseContent P cat cty content = (none, none)) ∧
    (∀ pre c post, cat = pre ++ c :: post → c.candidate main sub = true →
        ((c.parser content).1 ≠ none ∨ (c.parser content).2 ≠ none) →
        (∀ b ∈ pre, b.candidate main sub = true → b.parser content = (none, none)) →
        parseContent P cat cty content = c.parser content) := by
  rw [parseContent_of_type P cat cty content main sub hty]
  refine ⟨parseContentLoop_eq_find cat main sub content, ?_, ?_⟩
  · intro h
    have := parseContentLoop_skip cat [] main sub content h
    simpa [parseContentLoop] using this
  · intro pre c post hcat hc hdec hpre
    subst hcat
    rw [parseContentLoop_skip pre (c :: post) main sub content hpre, parseContentLoop]
    simp [hc, (decides_eq_true_iff _).2 hdec]

/-- Witness for C1: the test case `empty` of `Test_parseContent`, where the
entry registered first has no opinion and the second one decides. -/
theorem parseContent_first_match_witness :
    parseContentType sampleMediaType "t/WithNil" = ("t", "WithNil", none) ∧
    parseContent sampleMediaType
        [⟨"t", "WithNil", nopParser⟩, ⟨"t", "WithNil", dummmyParser⟩, ⟨"t", "WithNil", errParser⟩]
        "t/WithNil" "Hi"
      = (some [("dummy", Value.str "Hi")], none) :=
  ⟨rfl, (parseContent_first_match sampleMediaType
      [⟨"t", "WithNil", nopParser⟩, ⟨"t", "WithNil", dummmyParser⟩, ⟨"t", "WithNil", errParser⟩]
      "t/WithNil" "Hi" "t" "WithNil" rfl).2.2
      [⟨"t", "WithNil", nopParser⟩] ⟨"t", "WithNil", dummmyParser⟩ [⟨"t", "WithNil", errParser⟩]
      rfl rfl (Or.inl (by simp [dummmyParser]))
      (by intro b hb _; simp at hb; subst hb; rfl)⟩

/-! ## C2: the candidate condition -/

/-- C2: an entry registered as `(m, s)` is a candidate for a requested type
`(m', t)` exactly when `m = m'` and `s` is a prefix of `t` or `s` is a suffix of
`t`. In particular a parser registered for subtype `s` is consulted for the
requested subtypes `s`, `x+s` and `s+x`: the lookup over the catalog holding
that one entry returns the parser's result. -/
theorem candidate_iff_prefix_or_suffix (m s : String) (p : ParserFunc)
    (m' t x content : String) :
    ((contentType.mk m s p).candidate m' t = true
        ↔ m = m' ∧ ((∃ y : String, t = s ++ y) ∨ (∃ y : String, t = y ++ s))) ∧
    ((contentType.mk m s p).candidate m s = true ∧
      (contentType.mk m s p).candidate m (x ++ "+" ++ s) = true ∧
      (contentType.mk m s p).candidate m (s ++ "+" ++ x) = true) ∧
    (parseContentLoop [⟨m, s, p⟩] m s content = p content ∧
      parseContentLoop [⟨m, s, p⟩] m (x ++ "+" ++ s) content = p content ∧
      parseContentLoop [⟨m, s, p⟩] m (s ++ "+" ++ x) content = p content) := by
  have key : ∀ m' t, ((contentType.mk m s p).candidate m' t = true
      ↔ m = m' ∧ ((∃ y : String, t = s ++ y) ∨ (∃ y : String, t = y ++ s))) := by
    intro m' t
    simp only [contentType.candidate, Bool.and_eq_true, Bool.or_eq_true, decide_eq_true_eq,
      hasPrefix_iff, hasSuffix_iff]
  have h1 : (contentType.mk m s p).candidate m s = true :=
    (key m s).2 ⟨rfl, Or.inl ⟨"", by simp⟩⟩
  have h2 : (contentType.mk m s p).candidate m (x ++ "+" ++ s) = true :=
    (key m _).2 ⟨rfl, Or.inr ⟨x ++ "+", rfl⟩⟩
  have h3 : (contentType.mk m s p).candidate m (s ++ "+" ++ x) = true :=
    (key m _).2 ⟨rfl, Or.inl ⟨"+" ++ x, by rw [String.append_assoc]⟩⟩
  have single : ∀ t, (contentType.mk m s p).candidate m t = true →
      parseContentLoop [⟨m, s, p⟩] m t content = p content := by
    intro t ht
    simp only [parseContentLoop, ht, if_true]
    by_cases hd : decides (p content) = true
    · simp [hd]
    · simp only [hd]
      exact ((decides_eq_false_iff _).1 (by simpa using hd)).symm
  exact ⟨key m' t, ⟨h1, h2, h3⟩, single _ h1, single _ h2, single _ h3⟩

/-! ## C3: first match wins in `parseAuth`, on exact scheme equality -/

/-- C3: for every catalog, scheme and credentials, `parseAuth` returns the result
of the earliest-registered entry whose scheme equals the requested scheme and
whose parser, applied to the credentials, returns a non-nil dict or a non-nil
error. An entry with any other scheme is never consulted (removing it leaves
the result unchanged), and with no deciding entry the result is `(nil, nil)`. -/
theorem parseAuth_first_match (cat : List authScheme) (scheme credentials : String) :
    parseAuth cat scheme credentials
        = (((cat.filter fun a => decide (a.scheme = scheme)).map
            fun a => a.parser credentials).find? decides).getD (none, none) ∧
    ((∀ a ∈ cat, a.scheme = scheme → a.parser credentials = (none, none)) →
        parseAuth cat scheme credentials = (none, none)) ∧
    (∀ pre a post, cat = pre ++ a :: post → a.scheme = scheme →
        ((a.parser credentials).1 ≠ none ∨ (a.parser credentials).2 ≠ none) →
        (∀ b ∈ pre, b.scheme = scheme → b.parser credentials = (none, none)) →
        parseAuth cat scheme credentials = a.parser credentials) ∧
    (∀ pre b post, cat = pre ++ b :: post → b.scheme ≠ scheme →
        parseAuth cat scheme credentials = parseAuth (pre ++ post) scheme credentials) := by
  refine ⟨parseAuth_eq_find cat scheme credentials, ?_, ?_, ?_⟩
  · intro h
    have := parseAuth_skip cat [] scheme credentials h
    simpa [parseAuth] using this
  · intro pre a post hcat ha hdec hpre
    subst hcat
    rw [parseAuth_skip pre (a :: post) scheme credentials hpre, parseAuth]
    simp [ha, (decides_eq_true_iff _).2 hdec]
  · intro pre b post hcat hb
    subst hcat
    exact parseAuth_drop pre b post scheme credentials hb

/-- Witness for C3: entries registered for a prefix, a suffix and a case variant
of the scheme `Auth` come first and fail, the next entry has no opinion, and the
result is that of the exact entry after it. -/
theorem parseAuth_first_match_witness :
    parseAuth [⟨"Au", errParser⟩, ⟨"uth", errParser⟩, ⟨"auth", errParser⟩, ⟨"Auth", nopParser⟩,
        ⟨"Auth", dummmyParser⟩, ⟨"Auth", errParser⟩] "Auth" "hello"
      = (some [("dummy", Value.str "hello")], none) ∧
    parseAuth [⟨"Au", errParser⟩, ⟨"Auth", dummmyParser⟩] "Auth" "hello"
      = parseAuth [⟨"Auth", dummmyParser⟩] "Auth" "hello" :=
  ⟨(parseAuth_first_match
      [⟨"Au", errParser⟩, ⟨"uth", errParser⟩, ⟨"auth", errParser⟩, ⟨"Auth", nopParser⟩,
        ⟨"Auth", dummmyParser⟩, ⟨"Auth", errParser⟩] "Auth" "hello").2.2.1
      [⟨"Au", errParser⟩, ⟨"uth", errParser⟩, ⟨"auth", errParser⟩, ⟨"Auth", nopParser⟩]
      ⟨"Auth", dummmyParser⟩ [⟨"Auth", errParser⟩] rfl rfl (Or.inl (by simp [dummmyParser]))
      (by
        intro b hb hs
        simp only [List.mem_cons, List.mem_singleton, List.not_mem_nil, or_false] at hb
        rcases hb with rfl | rfl | rfl | rfl
        · exact absurd hs (by decide)
        · exact absurd hs (by decide)
        · exact absurd hs (by decide)
        · rfl),
   (parseAuth_first_match [⟨"Au", errParser⟩, ⟨"Auth", dummmyParser⟩] "Auth" "hello").2.2.2
      [] ⟨"Au", errParser⟩ [⟨"Auth", dummmyParser⟩] rfl (by decide)⟩

/-! ## The split of the Authorization header -/

theorem splitN_two (l : List Char) :
    SplitN l ' ' 2 =
      match l.dropWhile (fun c => c != ' ') with
      | [] => [l.takeWhile fun c => c != ' ']
      | _ :: post => [l.takeWhile (fun c => c != ' '), post] := by
  rw [SplitN, List.span_eq_take_drop]
  cases l.dropWhile (fun c => c != ' ') <;> simp [SplitN]

theorem string_length_eq_zero_iff (s : String) : s.length = 0 ↔ s = "" := by
  constructor
  · intro h
    apply String.ext
    exact List.length_eq_zero.1 h
  · rintro rfl
    rfl

theorem parseAuthorizationHeader_nonempty (cat : List authScheme) (hdr : String)
    (hne : hdr ≠ "") :
    parseAuthorizationHeader cat hdr =
      match parseAuth cat (headerScheme hdr) (headerCredentials hdr) with
      | (_, some err) => (none, some err)
      | (v, none) =>
        (some [(headerScheme hdr, authorizationValue v (headerCredentials hdr))], none) := by
  have h0 : ¬ hdr.length = 0 := fun h => hne ((string_length_eq_zero_iff hdr).1 h)
  simp only [parseAuthorizationHeader, h0, if_false, splitN_two, headerScheme, headerCredentials,
    authorizationValue]
  cases hd : hdr.data.dropWhile (fun c => c != ' ') with
  | nil =>
    simp only [List.getD_cons_zero, List.length_singleton, gt_iff_lt, lt_self_iff_false,
      if_false, List.drop_nil]
    rcases parseAuth cat _ _ with ⟨v, _ | e⟩
    · dsimp only
      cases omitEmpty v <;> rfl
    · rfl
  | cons c post =>
    simp only [List.getD_cons_zero, List.length_cons, List.length_nil, gt_iff_lt,
      List.getD_cons_succ, List.drop_succ_cons, List.drop_zero]
    simp only [show (0 + 1 + 1 > 1) from by decide, if_true]
    rcases parseAuth cat _ _ with ⟨v, _ | e⟩
    · dsimp only
      cases omitEmpty v <;> rfl
    · rfl

theorem headerScheme_no_space (hdr : String) : ' ' ∉ (headerScheme hdr).data := by
  intro h
  have := List.mem_takeWhile_imp h
  simp at this

theorem header_split_of_space (hdr : String) (h : ' ' ∈ hdr.data) :
    headerScheme hdr ++ " " ++ headerCredentials hdr = hdr := by
  apply String.ext
  simp only [String.data_append, headerScheme, headerCredentials]
  have hd : ∃ post, hdr.data.dropWhile (fun c => c != ' ') = ' ' :: post := by
    cases hdw : hdr.data.dropWhile (fun c => c != ' ') with
    | nil =>
      rw [List.dropWhile_eq_nil_iff] at hdw
      have := hdw ' ' h
      simp at this
    | cons c post =>
      have hc := List.head_dropWhile_not (fun c => c != ' ') hdr.data (by rw [hdw]; simp)
      simp only [hdw, List.head_cons] at hc
      simp at hc
      exact ⟨post, by rw [hc]⟩
  obtain ⟨post, hpost⟩ := hd
  rw [hpost]
  have := List.takeWhile_append_dropWhile (fun c => c != ' ') hdr.data
  rw [hpost] at this
  simpa using this

theorem header_split_of_no_space (hdr : String) (h : ' ' ∉ hdr.data) :
    headerScheme hdr = hdr ∧ headerCredentials hdr = "" := by
  have hall : ∀ c ∈ hdr.data, (c != ' ') = true := by
    intro c hc
    simp only [bne_iff_ne, ne_eq]
    rintro rfl
    exact h hc
  constructor
  · apply String.ext
    simp only [headerScheme]
    exact List.takeWhile_eq_self_iff.2 hall
  · apply String.ext
    simp only [headerCredentials]
    rw [List.dropWhile_eq_nil_iff.2 hall]
    rfl

theorem header_split_unique (a b : String) (ha : ' ' ∉ a.data) :
    headerScheme (a ++ " " ++ b) = a ∧ headerCredentials (a ++ " " ++ b) = b := by
  have hall : ∀ c ∈ a.data, (c != ' ') = true := by
    intro c hc
    simp only [bne_iff_ne, ne_eq]
    rintro rfl
    exact ha hc
  have hdata : (a ++ " " ++ b).data = a.data ++ ' ' :: b.data := by
    simp [String.data_append]
  constructor
  · apply String.ext
    simp only [headerScheme, hdata]
    rw [List.takeWhile_append_of_pos hall]
    simp
  · apply String.ext
    simp only [headerCredentials, hdata]
    rw [List.dropWhile_append_of_pos hall]
    simp

theorem authorizationValue_of_empty (v : Dict) (credentials : String)
    (h : v = none ∨ v = some []) : authorizationValue v credentials = Value.str credentials := by
  rcases h with rfl | rfl <;> rfl

/-! ## C4: raw credential passthrough -/

/-- C4: for every non-empty Authorization header whose scheme has no deciding
parser in the catalog, or whose deciding parser returns an empty dict without
error, `parseAuthorizationHeader` returns the one-entry dict
`{scheme: credentials}` holding the raw credentials string, and no error. -/
theorem parseAuthorizationHeader_raw_passthrough (cat : List authScheme) (hdr : String)
    (hne : hdr ≠ "")
    (h : (∀ a ∈ cat, a.scheme = headerScheme hdr →
            a.parser (headerCredentials hdr) = (none, none)) ∨
         (∃ pre a post, cat = pre ++ a :: post ∧ a.scheme = headerScheme hdr ∧
            (∀ b ∈ pre, b.scheme = headerScheme hdr →
              b.parser (headerCredentials hdr) = (none, none)) ∧
            a.parser (headerCredentials hdr) = (some [], none))) :
    parseAuthorizationHeader cat hdr
      = (some [(headerScheme hdr, Value.str (headerCredentials hdr))], none) := by
  rw [parseAuthorizationHeader_nonempty cat hdr hne]
  rcases h with h | ⟨pre, a, post, rfl, ha, hpre, hres⟩
  · have := parseAuth_skip cat [] (headerScheme hdr) (headerCredentials hdr) h
    rw [List.append_nil] at this
    rw [this, parseAuth]
    rfl
  · rw [parseAuth_skip pre (a :: post) _ _ hpre, parseAuth]
    simp only [ha, if_true, hres]
    rfl

/-- Witness for C4: the test case `unknown`, header `foo bar` with no parser
registered for `foo`. -/
theorem parseAuthorizationHeader_raw_passthrough_witness :
    "foo bar" ≠ "" ∧
    parseAuthorizationHeader [⟨"Bearer", dummmyParser⟩] "foo bar"
      = (some [("foo", Value.str "bar")], none) ∧
    parseAuthorizationHeader [⟨"foo", nopParser⟩, ⟨"foo", emptyParser⟩, ⟨"foo", errParser⟩]
        "foo bar"
      = (some [("foo", Value.str "bar")], none) :=
  ⟨by decide,
   parseAuthorizationHeader_raw_passthrough [⟨"Bearer", dummmyParser⟩] "foo bar" (by decide)
    (Or.inl (by
      intro a ha hs
      simp only [List.mem_singleton] at ha
      subst ha
      exact absurd hs (by decide))),
   parseAuthorizationHeader_raw_passthrough
    [⟨"foo", nopParser⟩, ⟨"foo", emptyParser⟩, ⟨"foo", errParser⟩] "foo bar" (by decide)
    (Or.inr ⟨[⟨"foo", nopParser⟩], ⟨"foo", emptyParser⟩, [⟨"foo", errParser⟩], rfl, rfl,
      (by
        intro b hb _
        simp only [List.mem_singleton] at hb
        subst hb
        rfl), rfl⟩)⟩

/-! ## C5: the single key is the scheme -/

/-- C5: for every non-empty Authorization header on which no parser fails,
`parseAuthorizationHeader` returns a dict with exactly one key, the scheme: the
part of the header before its first space, the whole header when it has no
space. The credentials passed to `parseAuth` are everything after that first
space, the empty string when there is none, and `scheme ++ " " ++ credentials`
is the header whenever it contains a space. -/
theorem parseAuthorizationHeader_single_key (cat : List authScheme) (hdr : String)
    (hne : hdr ≠ "") (hok : (parseAuthorizationHeader cat hdr).2 = none) :
    parseAuthorizationHeader cat hdr
        = (some [(headerScheme hdr, authorizationValue
            (parseAuth cat (headerScheme hdr) (headerCredentials hdr)).1
            (headerCredentials hdr))], none) ∧
    ' ' ∉ (headerScheme hdr).data ∧
    (' ' ∈ hdr.data → headerScheme hdr ++ " " ++ headerCredentials hdr = hdr) ∧
    (' ' ∉ hdr.data → headerScheme hdr = hdr ∧ headerCredentials hdr = "") ∧
    (∀ a b : String, hdr = a ++ " " ++ b → ' ' ∉ a.data →
        parseAuthorizationHeader cat hdr
          = (some [(a, authorizationValue (parseAuth cat a b).1 b)], none)) := by
  have hmain : parseAuthorizationHeader cat hdr
        = (some [(headerScheme hdr, authorizationValue
            (parseAuth cat (headerScheme hdr) (headerCredentials hdr)).1
            (headerCredentials hdr))], none) := by
    have heq := parseAuthorizationHeader_nonempty cat hdr hne
    rw [heq] at hok ⊢
    rcases hp : parseAuth cat (headerScheme hdr) (headerCredentials hdr) with ⟨v, _ | e⟩
    · rfl
    · rw [hp] at hok
      simp at hok
  refine ⟨hmain, headerScheme_no_space hdr, header_split_of_space hdr,
    header_split_of_no_space hdr, ?_⟩
  intro a b hab ha
  obtain ⟨h1, h2⟩ := header_split_unique a b ha
  rw [← hab] at h1 h2
  rw [hmain, h1, h2]

/-- Witness for C5: the test case `normal`, a header with two spaces, split at
the first one. -/
theorem parseAuthorizationHeader_single_key_witness :
    (parseAuthorizationHeader [⟨"Basic", dummmyParser⟩] "Basic pass ed").2 = none ∧
    parseAuthorizationHeader [⟨"Basic", dummmyParser⟩] "Basic pass ed"
      = (some [("Basic", Value.dict (some [("dummy", Value.str "pass ed")]))], none) :=
  ⟨rfl, (parseAuthorizationHeader_single_key [⟨"Basic", dummmyParser⟩] "Basic pass ed"
      (by decide) rfl).2.2.2.2 "Basic" "pass ed" rfl (by decide)⟩

/-! ## C6: the empty header -/

/-- C6: for the empty Authorization header `parseAuthorizationHeader` returns
`(nil, nil)` for every catalog, without consulting a registered parser: it does
so also when a parser that fails on every input is registered first for the
empty scheme, for which `parseAuth` on the empty scheme and credentials fails. -/
theorem parseAuthorizationHeader_empty (cat : List authScheme) :
    parseAuthorizationHeader cat "" = (none, none) ∧
    parseAuthorizationHeader (⟨"", errParser⟩ :: cat) "" = (none, none) ∧
    parseAuth (⟨"", errParser⟩ :: cat) "" "" = (none, some errDummy) :=
  ⟨rfl, rfl, rfl⟩

/-! ## C7: error propagation -/

/-- C7: `parseAuthorizationHeader` fails exactly when its call of `parseAuth` on
the split `(scheme, credentials)` fails, a call it makes for every non-empty
header and for no other. Its error is then the error `parseAuth` returned and
its dict is nil; in every other case it returns no error. -/
theorem parseAuthorizationHeader_error (cat : List authScheme) (hdr : String) :
    (parseAuthorizationHeader cat hdr).2
        = (if hdr = "" then none
           else (parseAuth cat (headerScheme hdr) (headerCredentials hdr)).2) ∧
    ((parseAuthorizationHeader cat hdr).2 ≠ none → (parseAuthorizationHeader cat hdr).1 = none) ∧
    ((parseAuthorizationHeader cat hdr).2 = none → hdr ≠ "" →
        (parseAuthorizationHeader cat hdr).1 ≠ none) := by
  by_cases hne : hdr = ""
  · subst hne
    exact ⟨rfl, fun h => absurd rfl h, fun _ h => absurd rfl h⟩
  · rw [parseAuthorizationHeader_nonempty cat hdr hne]
    simp only [hne, if_false]
    rcases parseAuth cat (headerScheme hdr) (headerCredentials hdr) with ⟨v, _ | e⟩ <;> simp

/-- Witness for C7: the test case `error`, where the registered parser rejects
the empty credentials of a header without a space. -/
theorem parseAuthorizationHeader_error_witness :
    parseAuthorizationHeader [⟨"Auth", errParser⟩] "Auth" = (none, some errDummy) ∧
    (parseAuthorizationHeader [⟨"Auth", errParser⟩] "Auth").1 = none :=
  ⟨rfl, (parseAuthorizationHeader_error [⟨"Auth", errParser⟩] "Auth").2.1 (by decide)⟩

/-! ## Maps -/

theorem Entries.get_set (es : Entries) (k k' : String) (v : Value) :
    (es.set k v).get k' = if k = k' then some v else es.get k' := by
  induction es with
  | nil => simp [Entries.set, Entries.get]
  | cons e es ih =>
    obtain ⟨k0, v0⟩ := e
    by_cases h0 : k0 = k
    · subst h0
      by_cases h1 : k0 = k' <;> simp [Entries.set, Entries.get, h1]
    · by_cases h1 : k0 = k'
      · subst h1
        simp [Entries.set, Entries.get, h0, Ne.symm h0]
      · simp [Entries.set, Entries.get, h0, h1, ih]

theorem MapValues_some (m : List (String × List String)) :
    MapValues (some m) = some (m.foldl (fun out kv => Entries.set out kv.1 (collapse kv.2)) []) := by
  simp only [MapValues, collapse]
  congr 2
  funext out kv
  split <;> rfl

theorem foldl_set_get (m : List (String × List String)) (hm : (m.map Prod.fst).Nodup)
    (init : Entries) (k : String) :
    (m.foldl (fun out kv => Entries.set out kv.1 (collapse kv.2)) init).get k
      = match m.lookup k with
        | some v => some (collapse v)
        | none => init.get k := by
  induction m generalizing init with
  | nil => rfl
  | cons e m ih =>
    obtain ⟨k0, v0⟩ := e
    simp only [List.map_cons, List.nodup_cons] at hm
    rw [List.foldl_cons, ih hm.2, Entries.get_set]
    by_cases hk : k = k0
    · subst hk
      have hnone : m.lookup k = none := by
        rw [List.lookup_eq_none_iff]
        intro p hp
        simp only [bne_iff_ne, ne_eq]
        intro hpk
        apply hm.1
        rw [List.mem_map]
        exact ⟨p, hp, hpk.symm⟩
      simp [hnone, List.lookup_cons]
    · have hb : (k == k0) = false := by simpa using hk
      simp only [List.lookup_cons, hb]
      cases m.lookup k with
      | none => simp [Ne.symm hk]
      | some v => rfl

theorem lookup_isSome_iff (m : List (String × List String)) (k : String) :
    (m.lookup k).isSome = true ↔ k ∈ m.map Prod.fst := by
  induction m with
  | nil => simp
  | cons e m ih =>
    obtain ⟨k0, v0⟩ := e
    by_cases hk : k = k0
    · subst hk
      simp [List.lookup_cons]
    · have hb : (k == k0) = false := by simpa using hk
      simp only [List.lookup_cons, hb, ih, List.map_cons, List.mem_cons, hk, false_or]

theorem foldl_set_no_empty (m : List (String × List String))
    (hm : ∀ kv ∈ m, kv.2 ≠ []) (init : Entries)
    (hinit : ∀ k, init.get k ≠ some (Value.strs [])) (k : String) :
    (m.foldl (fun out kv => Entries.set out kv.1 (collapse kv.2)) init).get k
      ≠ some (Value.strs []) := by
  induction m generalizing init with
  | nil => exact hinit k
  | cons e m ih =>
    rw [List.foldl_cons]
    apply ih (fun kv hkv => hm kv (List.mem_cons_of_mem _ hkv))
    intro k'
    rw [Entries.get_set]
    split
    · have he := hm e (List.mem_cons_self _ _)
      simp only [collapse]
      split <;> simp [he]
    · exact hinit k'

/-! ## C8: `MapValues` collapses by value count -/

/-- C8: `MapValues` keeps every key of its input and collapses by value count. For
every multimap (a Go map, so its keys are distinct) and every key `k`: if `k`
has exactly one value the output stores that value as a scalar string, if `k`
has more than one value the output stores the sequence of its values unchanged
and in the original order, and the output has a key exactly when the input
has it. -/
theorem MapValues_collapse (m : List (String × List String))
    (hm : (m.map Prod.fst).Nodup) (k : String) :
    ∃ out : Entries, MapValues (some m) = some out ∧
      (∀ v, m.lookup k = some [v] → out.get k = some (Value.str v)) ∧
      (∀ vs, m.lookup k = some vs → 1 < vs.length → out.get k = some (Value.strs vs)) ∧
      (k ∈ m.map Prod.fst → (out.get k).isSome = true) ∧
      ((out.get k).isSome = true → k ∈ m.map Prod.fst) := by
  refine ⟨_, MapValues_some m, ?_, ?_, ?_, ?_⟩
  · intro v hv
    rw [foldl_set_get m hm, hv]
    rfl
  · intro vs hvs hlen
    rw [foldl_set_get m hm, hvs]
    simp [collapse, Nat.ne_of_gt hlen]
  · intro hk
    rw [foldl_set_get m hm]
    have := (lookup_isSome_iff m k).2 hk
    cases hl : m.lookup k with
    | none => simp [hl] at this
    | some v => rfl
  · intro hk
    rw [foldl_set_get m hm] at hk
    apply (lookup_isSome_iff m k).1
    cases hl : m.lookup k with
    | none => simp [hl, Entries.get] at hk
    | some v => rfl

/-- Witness for C8: the test case `mixed` of `TestMapValues`, at the key that
has two values. -/
theorem MapValues_collapse_witness :
    ([("foo", ["foo", "bar"]), ("bar", ["bar"])].map Prod.fst).Nodup ∧
    ∃ out : Entries, MapValues (some [("foo", ["foo", "bar"]), ("bar", ["bar"])]) = some out ∧
      (∀ v, [("foo", ["foo", "bar"]), ("bar", ["bar"])].lookup "foo" = some [v] →
        out.get "foo" = some (Value.str v)) ∧
      (∀ vs, [("foo", ["foo", "bar"]), ("bar", ["bar"])].lookup "foo" = some vs →
        1 < vs.length → out.get "foo" = some (Value.strs vs)) ∧
      ("foo" ∈ [("foo", ["foo", "bar"]), ("bar", ["bar"])].map Prod.fst →
        (out.get "foo").isSome = true) ∧
      ((out.get "foo").isSome = true →
        "foo" ∈ [("foo", ["foo", "bar"]), ("bar", ["bar"])].map Prod.fst) :=
  ⟨by decide, MapValues_collapse [("foo", ["foo", "bar"]), ("bar", ["bar"])] (by decide) "foo"⟩

/-! ## C9: empty sequences in the output of `MapValues` -/

/-- C9, counterexample: a key whose value list is empty is not omitted by
`MapValues`; it is stored with the empty sequence as its value. -/
theorem MapValues_stores_empty_sequence :
    ∃ out : Entries, MapValues (some [("k", [])]) = some out ∧
      out.get "k" = some (Value.strs []) :=
  ⟨[("k", Value.strs [])], rfl, rfl⟩

/-- C9, amended: for every input multimap in which every key has at least one
value, no key of the output of `MapValues` is stored with an empty sequence. A
key whose value list is empty is not omitted: the output stores it with the
empty sequence. -/
theorem MapValues_no_empty_sequence (m : List (String × List String)) (k : String) :
    ∃ out : Entries, MapValues (some m) = some out ∧
      ((∀ kv ∈ m, kv.2 ≠ []) → out.get k ≠ some (Value.strs [])) ∧
      ((m.map Prod.fst).Nodup → m.lookup k = some [] → out.get k = some (Value.strs [])) := by
  refine ⟨_, MapValues_some m, ?_, ?_⟩
  · intro hne
    exact foldl_set_no_empty m hne [] (fun k' => by simp [Entries.get]) k
  · intro hm hk
    rw [foldl_set_get m hm, hk]
    rfl

/-- Witness for C9, amended: the multimap of the test case `mixed`, whose keys
all have a value. -/
theorem MapValues_no_empty_sequence_witness :
    (∀ kv ∈ [("foo", ["foo", "bar"]), ("bar", ["bar"])], kv.2 ≠ ([] : List String)) ∧
    ∃ out : Entries, MapValues (some [("foo", ["foo", "bar"]), ("bar", ["bar"])]) = some out ∧
      out.get "foo" ≠ some (Value.strs []) := by
  have hne : ∀ kv ∈ [("foo", ["foo", "bar"]), ("bar", ["bar"])], kv.2 ≠ ([] : List String) := by
    decide
  obtain ⟨out, h1, h2, _⟩ :=
    MapValues_no_empty_sequence [("foo", ["foo", "bar"]), ("bar", ["bar"])] "foo"
  exact ⟨hne, out, h1, h2 hne⟩

/-! ## C10: the text of a composite error -/

/-- C10, counterexample: on the list holding one already wrapped error (the test
case `wrapped`) the text of `wrapError` is `parse error,foo`, whereas the tag
followed by the comma-joined, CSV-quoted texts of the list would quote the
inner text `parse error,foo`, which contains a comma. -/
theorem wrapError_wrapped_not_quoted :
    (wrapError [wrapError [errFoo]]).Error = "parse error,foo" ∧
    (wrapError [errFoo]).Error = "parse error,foo" ∧
    compositeText [wrapError [errFoo]] = "parse error,\"parse error,foo\"" ∧
    (wrapError [wrapError [errFoo]]).Error ≠ compositeText [wrapError [errFoo]] := by
  decide

/-- C10, amended: for every list of errors none of which is already a parse
error, the text of `wrapError` is the tag `parse error` followed by a comma and
the comma-joined texts of the errors in the given order, a text containing a
comma being CSV-quoted. The empty list gives `parse error,`, `[dummy]` gives
`parse error,dummy`, `[dummy, foo]` gives `parse error,dummy,foo` and
`[foo,bar]` gives `parse error,"foo,bar"`; the result is an error value for
every list, never nil. -/
theorem wrapError_text (errs : List GoError) :
    ((∀ e ∈ errs, ∃ text, e = GoError.plain text) →
        (wrapError errs).Error = compositeText errs) ∧
    (some (wrapError errs) ≠ none) ∧
    (wrapError []).Error = "parse error," ∧
    (wrapError [errDummy]).Error = "parse error,dummy" ∧
    (wrapError [errDummy, errFoo]).Error = "parse error,dummy,foo" ∧
    (wrapError [errWithComma]).Error = "parse error,\"foo,bar\"" := by
  refine ⟨?_, by simp, by decide, by decide, by decide, by decide⟩
  intro h
  simp only [wrapError, GoError.Error, compositeText]
  congr 2
  apply List.map_congr_left
  intro e he
  obtain ⟨text, rfl⟩ := h e he
  rfl

/-- Witness for C10, amended: two ordinary errors, the second with a comma in
its text. -/
theorem wrapError_text_witness :
    (∀ e ∈ [errDummy, errWithComma], ∃ text, e = GoError.plain text) ∧
    (wrapError [errDummy, errWithComma]).Error = compositeText [errDummy, errWithComma] ∧
    compositeText [errDummy, errWithComma] = "parse error,dummy,\"foo,bar\"" := by
  have h : ∀ e ∈ [errDummy, errWithComma], ∃ text, e = GoError.plain text := by
    intro e he
    simp only [List.mem_cons, List.mem_singleton, List.not_mem_nil, or_false] at he
    rcases he with rfl | rfl
    · exact ⟨"dummy", rfl⟩
    · exact ⟨"foo,bar", rfl⟩
  exact ⟨h, (wrapError_text [errDummy, errWithComma]).1 h, by decide⟩

/-! ## C11: wrapping an already wrapped error -/

/-- C11: wrapping is idempotent on an already wrapped error. For every error `e`
the text of `wrapError(wrapError(e))` is the text of `wrapError(e)`: the tag is
not repeated and the inner text is not quoted, so `wrapError(wrapError(foo))`
reads `parse error,foo`, also when the text of `e` holds a comma. -/
theorem wrapError_idempotent (e : GoError) :
    (wrapError [wrapError [e]]).Error = (wrapError [e]).Error ∧
    wrapError [wrapError [e]] = wrapError [e] ∧
    (wrapError [wrapError [errFoo]]).Error = "parse error,foo" ∧
    (wrapError [wrapError [errWithComma]]).Error = (wrapError [errWithComma]).Error ∧
    (wrapError [wrapError [errWithComma]]).Error = "parse error,\"foo,bar\"" := by
  have h : wrapError [wrapError [e]] = wrapError [e] := by
    simp [wrapError, errorField, String.intercalate, String.intercalate.go]
  exact ⟨by rw [h], h, by decide, by decide, by decide⟩

/-! ## C17: content types without a slash -/

theorem candidate_empty_pair (c : contentType) :
    c.candidate "" "" = true ↔ c.main = "" ∧ c.sub = "" := by
  simp only [contentType.candidate, Bool.and_eq_true, Bool.or_eq_true, decide_eq_true_eq,
    hasPrefix_iff, hasSuffix_iff]
  constructor
  · rintro ⟨hm, ⟨x, hx⟩ | ⟨x, hx⟩⟩
    · refine ⟨hm, String.ext ?_⟩
      have h1 : c.sub.data ++ x.data = [] := by
        rw [← String.data_append, ← hx]
      exact (List.append_eq_nil.1 h1).1
    · refine ⟨hm, String.ext ?_⟩
      have h1 : x.data ++ c.sub.data = [] := by
        rw [← String.data_append, ← hx]
      exact (List.append_eq_nil.1 h1).2
  · rintro ⟨hm, hs⟩
    exact ⟨hm, Or.inl ⟨"", by rw [hs]; rfl⟩⟩

/-- C17, counterexample: the type string `application` is registered without
error and gives an entry with the empty pair; for the requested type `text`,
which also parses to the empty pair, `parseContent` invokes that entry and
returns its dict instead of `(nil, nil)`. -/
theorem parseContent_slashless_matches :
    parseContentType sampleMediaType "text" = ("", "", none) ∧
    (RegisterContentType sampleMediaType ⟨[], []⟩ "application" dummmyParser).2 = none ∧
    parseContent sampleMediaType
        (RegisterContentType sampleMediaType ⟨[], []⟩ "application" dummmyParser).1.contentTypes
        "text" "Hi"
      = (some [("dummy", Value.str "Hi")], none) ∧
    parseContent sampleMediaType
        (RegisterContentType sampleMediaType ⟨[], []⟩ "application" dummmyParser).1.contentTypes
        "text" "Hi"
      ≠ (none, none) := by
  refine ⟨rfl, rfl, rfl, ?_⟩
  intro h
  have h1 : parseContent sampleMediaType
      (RegisterContentType sampleMediaType ⟨[], []⟩ "application" dummmyParser).1.contentTypes
      "text" "Hi" = (some [("dummy", Value.str "Hi")], none) := rfl
  rw [h1] at h
  simp at h

/-- C17, amended: for every catalog and every content-type string that parses
without error to the empty primary/subtype pair, the candidates of
`parseContent` are exactly the entries holding the empty pair, which are the
entries registered under such a type string. The result is `(nil, nil)`, no
match and no error, whenever the catalog has no such entry; otherwise it is the
result of the first of them that decides. -/
theorem parseContent_empty_pair (P : String → Except GoError String)
    (cat : List contentType) (cty content : String)
    (hty : parseContentType P cty = ("", "", none)) :
    ((∀ c ∈ cat, ¬ (c.main = "" ∧ c.sub = "")) →
        parseContent P cat cty content = (none, none)) ∧
    parseContent P cat cty content
        = (((cat.filter fun c => decide (c.main = "" ∧ c.sub = "")).map
            fun c => c.parser content).find? decides).getD (none, none) ∧
    (∀ (reg : Registry) (p : ParserFunc),
        RegisterContentType P reg cty p
          = ({ reg with contentTypes := reg.contentTypes ++ [⟨"", "", p⟩] }, none)) := by
  rw [parseContent_of_type P cat cty content "" "" hty]
  refine ⟨?_, ?_, ?_⟩
  · intro h
    have := parseContentLoop_skip cat [] "" "" content
      (fun b hb hc => absurd ((candidate_empty_pair b).1 hc) (h b hb))
    simpa [parseContentLoop] using this
  · rw [parseContentLoop_eq_find]
    congr 4
    funext c
    rw [Bool.eq_iff_iff, candidate_empty_pair]
    simp
  · intro reg p
    simp [RegisterContentType, hty]

/-- Witness for C17, amended: the requested type `text` against a catalog whose
entries were all registered with a slash. -/
theorem parseContent_empty_pair_witness :
    parseContentType sampleMediaType "text" = ("", "", none) ∧
    parseContent sampleMediaType [⟨"text", "plain", dummmyParser⟩, ⟨"application", "", errParser⟩]
      "text" "Hi" = (none, none) :=
  ⟨rfl, (parseContent_empty_pair sampleMediaType
      [⟨"text", "plain", dummmyParser⟩, ⟨"application", "", errParser⟩] "text" "Hi" rfl).1
      (by
        intro c hc
        simp only [List.mem_cons, List.mem_singleton, List.not_mem_nil, or_false] at hc
        rcases hc with rfl | rfl <;> simp)⟩

/-! ## C18: rejected content types -/

/-- C18: for every content-type string that `parseContentType` rejects,
`parseContent` returns a nil dict and that non-nil error for every catalog and
every content, so that no registered parser influences the result. The strings
`?` and the empty string are rejected (the test cases `invalid` and `empty` of
`Test_parseContentType`), also against a catalog whose first entry would match
any subtype. -/
theorem parseContent_rejected (P : String → Except GoError String) (cty : String)
    (err : GoError) (hrej : (parseContentType P cty).2.2 = some err) :
    (∀ (cat : List contentType) (content : String),
        parseContent P cat cty content = (none, some err)) ∧
    (∀ (cat cat' : List contentType) (content : String),
        parseContent P cat cty content = parseContent P cat' cty content) ∧
    (∃ e, P cty = Except.error e ∧ err = wrapError [e]) ∧
    (parseContent sampleMediaType [⟨"", "", dummmyParser⟩] "?" "Hi").1 = none ∧
    (parseContent sampleMediaType [⟨"", "", dummmyParser⟩] "?" "Hi").2 ≠ none ∧
    (parseContent sampleMediaType [⟨"", "", dummmyParser⟩] "" "Hi").1 = none ∧
    (parseContent sampleMediaType [⟨"", "", dummmyParser⟩] "" "Hi").2 ≠ none := by
  have hall : ∀ (cat : List contentType) (content : String),
      parseContent P cat cty content = (none, some err) := by
    intro cat content
    rcases hp : parseContentType P cty with ⟨m, s, e⟩
    rw [hp] at hrej
    simp only at hrej
    subst hrej
    simp [parseContent, hp]
  refine ⟨hall, fun cat cat' content => by rw [hall, hall], ?_, rfl, by decide, rfl, by decide⟩
  unfold parseContentType at hrej
  cases hP : P cty with
  | error e =>
    rw [hP] at hrej
    simp only [Option.some.injEq] at hrej
    exact ⟨e, rfl, hrej.symm⟩
  | ok mt =>
    rw [hP] at hrej
    simp at hrej

/-- Witness for C18: the test case `badtype` of `Test_parseContent`. -/
theorem parseContent_rejected_witness :
    (parseContentType sampleMediaType "?").2.2
        = some (wrapError [GoError.plain "mime: no media type"]) ∧
    parseContent sampleMediaType [⟨"t", "Content", dummmyParser⟩] "?" "Hi"
      = (none, some (wrapError [GoError.plain "mime: no media type"])) :=
  ⟨rfl, (parseContent_rejected sampleMediaType "?"
      (wrapError [GoError.plain "mime: no media type"]) rfl).1
      [⟨"t", "Content", dummmyParser⟩] "Hi"⟩

/-! ## C19 and C20: registration -/

/-- C19: `RegisterContentType` returns a non-nil error if and only if
`parseContentType` rejects the type string, and then the catalog is left
unchanged; otherwise it returns nil and the catalog gains exactly one entry, at
its end, holding the parsed `(primaryType, subType)` and the given parser. -/
theorem RegisterContentType_spec (P : String → Except GoError String) (reg : Registry)
    (cty : String) (parser : ParserFunc) :
    ((RegisterContentType P reg cty parser).2 ≠ none ↔ (parseContentType P cty).2.2 ≠ none) ∧
    (RegisterContentType P reg cty parser).2 = (parseContentType P cty).2.2 ∧
    ((parseContentType P cty).2.2 ≠ none →
        (RegisterContentType P reg cty parser).1 = reg) ∧
    ((parseContentType P cty).2.2 = none →
        (RegisterContentType P reg cty parser).2 = none ∧
        (RegisterContentType P reg cty parser).1.contentTypes
          = reg.contentTypes ++
              [⟨(parseContentType P cty).1, (parseContentType P cty).2.1, parser⟩] ∧
        (RegisterContentType P reg cty parser).1.contentTypes.length
          = reg.contentTypes.length + 1) := by
  rcases hp : parseContentType P cty with ⟨m, s, _ | e⟩ <;>
    simp [RegisterContentType, hp]

/-- Witness for C19: the test cases `invalid` and `normal` of
`TestRegisterContentType`. -/
theorem RegisterContentType_spec_witness :
    (parseContentType sampleMediaType "foo bar").2.2 ≠ none ∧
    (RegisterContentType sampleMediaType ⟨[⟨"a", "b", nopParser⟩], []⟩ "foo bar" dummmyParser).1
      = ⟨[⟨"a", "b", nopParser⟩], []⟩ ∧
    (parseContentType sampleMediaType "application/dummy").2.2 = none ∧
    (RegisterContentType sampleMediaType ⟨[⟨"a", "b", nopParser⟩], []⟩
        "application/dummy" dummmyParser).1.contentTypes
      = [⟨"a", "b", nopParser⟩] ++ [⟨"application", "dummy", dummmyParser⟩] :=
  ⟨by decide,
   (RegisterContentType_spec sampleMediaType ⟨[⟨"a", "b", nopParser⟩], []⟩ "foo bar"
      dummmyParser).2.2.1 (by decide),
   rfl,
   ((RegisterContentType_spec sampleMediaType ⟨[⟨"a", "b", nopParser⟩], []⟩ "application/dummy"
      dummmyParser).2.2.2 rfl).2.1⟩

/-- C20: both catalogs are append-only. After a successful `RegisterContentType`
the content-type catalog is the previous one followed by the new entry and the
scheme catalog is unchanged; after `RegisterAuthScheme`, which accepts every
scheme string, the empty one and duplicates included, the scheme catalog is the
previous one followed by the new entry and the content-type catalog is
unchanged. No earlier entry is removed, replaced or moved. -/
theorem register_append_only (P : String → Except GoError String) (reg : Registry)
    (cty scheme : String) (parser : ParserFunc) :
    ((RegisterContentType P reg cty parser).2 = none →
        (∃ c, (RegisterContentType P reg cty parser).1.contentTypes = reg.contentTypes ++ [c]) ∧
        (RegisterContentType P reg cty parser).1.contentTypes.take reg.contentTypes.length
          = reg.contentTypes ∧
        (RegisterContentType P reg cty parser).1.authSchemes = reg.authSchemes) ∧
    (RegisterAuthScheme reg scheme parser).authSchemes
        = reg.authSchemes ++ [⟨scheme, parser⟩] ∧
    (RegisterAuthScheme reg scheme parser).authSchemes.take reg.authSchemes.length
        = reg.authSchemes ∧
    (RegisterAuthScheme reg scheme parser).contentTypes = reg.contentTypes ∧
    (RegisterAuthScheme (RegisterAuthScheme reg "" parser) "" parser).authSchemes
        = reg.authSchemes ++ [⟨"", parser⟩, ⟨"", parser⟩] := by
  refine ⟨?_, rfl, by simp [RegisterAuthScheme], rfl, by simp [RegisterAuthScheme]⟩
  rcases hp : parseContentType P cty with ⟨m, s, _ | e⟩ <;>
    simp [RegisterContentType, hp]

/-- Witness for C20: a registration of each kind on catalogs that already hold
an entry. -/
theorem register_append_only_witness :
    (RegisterContentType sampleMediaType ⟨[⟨"a", "b", nopParser⟩], [⟨"Basic", errParser⟩]⟩
        "a/b" dummmyParser).2 = none ∧
    (RegisterContentType sampleMediaType ⟨[⟨"a", "b", nopParser⟩], [⟨"Basic", errParser⟩]⟩
        "a/b" dummmyParser).1.authSchemes = [⟨"Basic", errParser⟩] ∧
    (RegisterContentType sampleMediaType ⟨[⟨"a", "b", nopParser⟩], [⟨"Basic", errParser⟩]⟩
        "a/b" dummmyParser).1.contentTypes.take 1 = [⟨"a", "b", nopParser⟩] :=
  ⟨rfl,
   ((register_append_only sampleMediaType ⟨[⟨"a", "b", nopParser⟩], [⟨"Basic", errParser⟩]⟩
      "a/b" "" dummmyParser).1 rfl).2.2,
   ((register_append_only sampleMediaType ⟨[⟨"a", "b", nopParser⟩], [⟨"Basic", errParser⟩]⟩
      "a/b" "" dummmyParser).1 rfl).2.1⟩

/-! ## The steps of `MapRequest` -/

theorem parseFormPost_header (std : Stdlib) (r : Request) :
    (parseFormPost std r).1.Header = r.Header ∧ (parseFormPost std r).1.RawQuery = r.RawQuery ∧
    (parseFormPost std r).1.Form = r.Form := by
  unfold parseFormPost
  split
  · exact ⟨rfl, rfl, rfl⟩
  · split <;> exact ⟨rfl, rfl, rfl⟩

theorem ParseForm_header (std : Stdlib) (r : Request) :
    (ParseForm std r).1.Header = r.Header := by
  unfold ParseForm
  dsimp only
  split <;> simp [(parseFormPost_header std r).1]

theorem ParseForm_body (std : Stdlib) (r : Request) :
    (ParseForm std r).1.Body = (parseFormPost std r).1.Body := by
  unfold ParseForm
  dsimp only
  split <;> rfl

theorem parseRequestBody_header (P : String → Except GoError String)
    (cts : List contentType) (r : Request) :
    (parseRequestBody P cts r).2.Header = r.Header := by
  unfold parseRequestBody
  split
  · rfl
  · split
    · rfl
    · split <;> rfl

theorem mapForm_eq (std : Stdlib) (r : Request) (out : Entries) (errs : List GoError) :
    mapForm std r out errs =
      ((match (ParseForm std r).2 with
        | none => setSection out "form" (omitEmpty (MapValues (ParseForm std r).1.PostForm))
        | some _ => out),
       errs ++ (ParseForm std r).2.toList, (ParseForm std r).1) := by
  unfold mapForm
  rcases ParseForm std r with ⟨r1, _ | e⟩ <;> simp

theorem mapBody_eq (P : String → Except GoError String) (cts : List contentType)
    (body : Bool) (r : Request) (out : Entries) (errs : List GoError) :
    mapBody P cts body r out errs =
      ((if body then
          match (parseRequestBody P cts r).1.2 with
          | none => setSection out "body" (parseRequestBody P cts r).1.1
          | some _ => out
        else out),
       errs ++ (if body then (parseRequestBody P cts r).1.2.toList else []),
       (if body then (parseRequestBody P cts r).2 else r)) := by
  unfold mapBody
  cases body
  · simp
  · rcases parseRequestBody P cts r with ⟨⟨v, _ | e⟩, r2⟩ <;> simp

theorem mapAuthorization_eq (auths : List authScheme) (r : Request) (out : Entries)
    (errs : List GoError) :
    mapAuthorization auths r out errs =
      ((match (parseAuthorizationHeader auths (headerGet r.Header "Authorization")).2 with
        | none => setSection out "authorization"
            (parseAuthorizationHeader auths (headerGet r.Header "Authorization")).1
        | some _ => out),
       errs ++ (parseAuthorizationHeader auths (headerGet r.Header "Authorization")).2.toList) := by
  unfold mapAuthorization
  rcases parseAuthorizationHeader auths (headerGet r.Header "Authorization") with ⟨v, _ | e⟩ <;>
    simp

theorem mapBody_header (P : String → Except GoError String) (cts : List contentType)
    (body : Bool) (r : Request) (out : Entries) (errs : List GoError) :
    (mapBody P cts body r out errs).2.2.Header = r.Header := by
  rw [mapBody_eq]
  cases body
  · rfl
  · exact parseRequestBody_header P cts r

theorem MapRequest_errs (std : Stdlib) (reg : Registry) (r : Request) (body : Bool) :
    (mapAuthorization reg.authSchemes
        (mapBody std.mediaType reg.contentTypes body (mapForm std r (requestBase std r) []).2.2
          (mapForm std r (requestBase std r) []).1 (mapForm std r (requestBase std r) []).2.1).2.2
        (mapBody std.mediaType reg.contentTypes body (mapForm std r (requestBase std r) []).2.2
          (mapForm std r (requestBase std r) []).1 (mapForm std r (requestBase std r) []).2.1).1
        (mapBody std.mediaType reg.contentTypes body (mapForm std r (requestBase std r) []).2.2
          (mapForm std r (requestBase std r) []).1 (mapForm std r (requestBase std r) []).2.1).2.1).2
      = collectedErrors std reg r body := by
  rw [mapAuthorization_eq, mapBody_header]
  simp only [mapBody_eq, mapForm_eq, ParseForm_header, collectedErrors, List.nil_append]

theorem MapRequest_error_eq (std : Stdlib) (reg : Registry) (r : Request) (body : Bool) :
    (MapRequest std reg r body).1.2
      = if collectedErrors std reg r body = [] then none
        else some (wrapError (collectedErrors std reg r body)) := by
  unfold MapRequest
  simp only [MapRequest_errs]
  cases h : collectedErrors std reg r body with
  | nil => simp
  | cons e es => simp

theorem MapRequest_dict (std : Stdlib) (reg : Registry) (r : Request) (body : Bool) :
    (MapRequest std reg r body).1.1 = some (requestEntries std reg r body) := by
  unfold MapRequest requestEntries
  dsimp only
  split <;> rfl

theorem setSection_get (out : Entries) (k k' : String) (d : Dict) :
    (setSection out k d).get k' =
      if k = k' then (match sectionValue d with
        | some v => some v
        | none => out.get k')
      else out.get k' := by
  cases d with
  | none => simp [setSection, sectionValue]
  | some es => simp [setSection, sectionValue, Entries.get_set]

theorem requestEntries_eq (std : Stdlib) (reg : Registry) (r : Request) (body : Bool) :
    requestEntries std reg r body =
      (match (parseAuthorizationHeader reg.authSchemes (headerGet r.Header "Authorization")).2 with
        | none => setSection
            (if body then
              match (parseRequestBody std.mediaType reg.contentTypes (ParseForm std r).1).1.2 with
              | none => setSection
                  (match (ParseForm std r).2 with
                    | none => setSection (requestBase std r) "form"
                        (omitEmpty (MapValues (ParseForm std r).1.PostForm))
                    | some _ => requestBase std r) "body"
                  (parseRequestBody std.mediaType reg.contentTypes (ParseForm std r).1).1.1
              | some _ =>
                  (match (ParseForm std r).2 with
                    | none => setSection (requestBase std r) "form"
                        (omitEmpty (MapValues (ParseForm std r).1.PostForm))
                    | some _ => requestBase std r)
            else
              (match (ParseForm std r).2 with
                | none => setSection (requestBase std r) "form"
                    (omitEmpty (MapValues (ParseForm std r).1.PostForm))
                | some _ => requestBase std r)) "authorization"
            (parseAuthorizationHeader reg.authSchemes (headerGet r.Header "Authorization")).1
        | some _ =>
            (if body then
              match (parseRequestBody std.mediaType reg.contentTypes (ParseForm std r).1).1.2 with
              | none => setSection
                  (match (ParseForm std r).2 with
                    | none => setSection (requestBase std r) "form"
                        (omitEmpty (MapValues (ParseForm std r).1.PostForm))
                    | some _ => requestBase std r) "body"
                  (parseRequestBody std.mediaType reg.contentTypes (ParseForm std r).1).1.1
              | some _ =>
                  (match (ParseForm std r).2 with
                    | none => setSection (requestBase std r) "form"
                        (omitEmpty (MapValues (ParseForm std r).1.PostForm))
                    | some _ => requestBase std r)
            else
              (match (ParseForm std r).2 with
                | none => setSection (requestBase std r) "form"
                    (omitEmpty (MapValues (ParseForm std r).1.PostForm))
                | some _ => requestBase std r))) := by
  unfold requestEntries
  dsimp only
  rw [mapAuthorization_eq, mapBody_header]
  simp only [mapBody_eq, mapForm_eq, ParseForm_header]

theorem requestBase_get (std : Stdlib) (r : Request) (k : String) :
    (requestBase std r).get k =
      if k = "query" then
        sectionValue (omitEmpty (MapValues (some (std.ParseQuery r.RawQuery).1)))
      else if k = "path" then some (Value.str r.Path)
      else if k = "cookies" then
        sectionValue (omitEmpty (mapCookies (std.readCookies r.Header)))
      else if k = "headers" then sectionValue (omitEmpty (MapValues r.Header))
      else if k = "method" then some (Value.str r.Method)
      else if k = "version" then some (Value.str r.Proto)
      else none := by
  unfold requestBase
  simp only [setSection_get, Entries.get_set, Entries.get]
  by_cases h1 : k = "query"
  · subst h1
    cases sectionValue (omitEmpty (MapValues (some (std.ParseQuery r.RawQuery).1))) <;> simp
  · by_cases h2 : k = "path"
    · subst h2; simp
    · by_cases h3 : k = "cookies"
      · subst h3
        cases sectionValue (omitEmpty (mapCookies (std.readCookies r.Header))) <;>
          cases sectionValue (omitEmpty (MapValues r.Header)) <;> simp
      · by_cases h4 : k = "headers"
        · subst h4
          cases sectionValue (omitEmpty (MapValues r.Header)) <;> simp
        · by_cases h5 : k = "method"
          · subst h5; simp
          · by_cases h6 : k = "version"
            · subst h6; simp
            · simp [h1, h2, h3, h4, h5, h6, Ne.symm h1, Ne.symm h2, Ne.symm h3, Ne.symm h4,
                Ne.symm h5, Ne.symm h6]

theorem requestEntries_get (std : Stdlib) (reg : Registry) (r : Request) (body : Bool)
    (k : String) :
    (requestEntries std reg r body).get k =
      if k = "authorization" then
        (match (parseAuthorizationHeader reg.authSchemes
            (headerGet r.Header "Authorization")).2 with
          | none => sectionValue (parseAuthorizationHeader reg.authSchemes
              (headerGet r.Header "Authorization")).1
          | some _ => none)
      else if k = "body" then
        (if body then
          match (parseRequestBody std.mediaType reg.contentTypes (ParseForm std r).1).1.2 with
          | none =>
            sectionValue (parseRequestBody std.mediaType reg.contentTypes (ParseForm std r).1).1.1
          | some _ => none
        else none)
      else if k = "form" then
        (match (ParseForm std r).2 with
          | none => sectionValue (omitEmpty (MapValues (ParseForm std r).1.PostForm))
          | some _ => none)
      else (requestBase std r).get k := by
  rw [requestEntries_eq]
  have hb1 : (requestBase std r).get "authorization" = none := by rw [requestBase_get]; simp
  have hb2 : (requestBase std r).get "body" = none := by rw [requestBase_get]; simp
  have hb3 : (requestBase std r).get "form" = none := by rw [requestBase_get]; simp
  rcases (parseAuthorizationHeader reg.authSchemes (headerGet r.Header "Authorization")).2
    with _ | ea <;>
  cases body <;>
  rcases (parseRequestBody std.mediaType reg.contentTypes (ParseForm std r).1).1.2
    with _ | eb <;>
  rcases (ParseForm std r).2 with _ | ef <;>
  simp only [setSection_get, if_true, if_false, Bool.false_eq_true] <;>
  by_cases h1 : k = "authorization" <;>
  by_cases h2 : k = "body" <;>
  by_cases h3 : k = "form" <;>
  (try subst h1) <;> (try subst h2) <;> (try subst h3) <;>
  simp_all [Ne.symm] <;>
  (first
    | (cases sectionValue (parseAuthorizationHeader reg.authSchemes
          (headerGet r.Header "Authorization")).1 <;> simp)
    | (cases sectionValue
          (parseRequestBody std.mediaType reg.contentTypes (ParseForm std r).1).1.1 <;> simp)
    | (cases sectionValue (omitEmpty (MapValues (ParseForm std r).1.PostForm)) <;> simp))

theorem firstErr_ne_none (err e : Option GoError) (h : err ≠ none) : firstErr err e ≠ none := by
  cases err with
  | none => exact absurd rfl h
  | some x => simp [firstErr]

theorem ParseForm_err_of_post (std : Stdlib) (r : Request)
    (h : (parseFormPost std r).2 ≠ none) : (ParseForm std r).2 ≠ none := by
  unfold ParseForm
  dsimp only
  split
  · exact h
  · exact firstErr_ne_none _ _ h

theorem parsePostForm_err_of_rejected (std : Stdlib) (r : Request)
    (hct : headerGet r.Header "Content-Type" ≠ "")
    (hrej : (std.ParseMediaType (headerGet r.Header "Content-Type")).2 ≠ none) :
    (parsePostForm std r).2.1 ≠ none := by
  unfold parsePostForm
  simp only [hct, if_false]
  split
  · split
    · exact firstErr_ne_none _ _ hrej
    · split
      · simp
      · exact firstErr_ne_none _ _ hrej
  · exact hrej

theorem parseFormPost_cases (std : Stdlib) (r : Request) :
    ((parseFormPost std r).1.Body = r.Body ∧ (parseFormPost std r).2 = none) ∨
    ((parseFormPost std r).1.Body = (parsePostForm std r).2.2 ∧
      (parseFormPost std r).2 = (parsePostForm std r).2.1 ∧ r.PostForm = none ∧
      (r.Method = "POST" ∨ r.Method = "PUT" ∨ r.Method = "PATCH")) := by
  unfold parseFormPost
  split
  · exact Or.inl ⟨rfl, rfl⟩
  · rename_i hpf
    split
    · rename_i hm
      exact Or.inr ⟨rfl, rfl, hpf, hm⟩
    · exact Or.inl ⟨rfl, rfl⟩

theorem parseRequestBody_rejected (std : Stdlib) (cts : List contentType) (r : Request)
    (hdata : r.Body.data ≠ "") (herr : r.Body.err = none)
    (hrej : (std.ParseMediaType (headerGet r.Header "Content-Type")).2 ≠ none) :
    (parseRequestBody std.mediaType cts r).1.2 ≠ none := by
  have hlen : ¬ r.Body.data.length = 0 := fun h => hdata ((string_length_eq_zero_iff _).1 h)
  obtain ⟨e, he⟩ := Option.ne_none_iff_exists'.1 hrej
  have hP : std.mediaType (headerGet r.Header "Content-Type") = Except.error e := by
    unfold Stdlib.mediaType
    rcases hp : std.ParseMediaType (headerGet r.Header "Content-Type") with ⟨mt, oe⟩
    rw [hp] at he
    simp only at he
    subst he
    rfl
  simp [parseRequestBody, wrapReader, ReadAll, herr, hlen, parseContent, parseContentType, hP]

/-! ## C12: the composite error of `MapRequest` -/

/-- C12: the error of `MapRequest` is the composite of exactly the failing steps
in collection order. With the steps form parsing, body dispatch (considered only
when the body flag is true) and authorization dispatch, the error is nil when
none of them fails, and otherwise it is `wrapError` applied to the errors of the
failing steps in the order form, body, authorization. -/
theorem MapRequest_error (std : Stdlib) (reg : Registry) (r : Request) (body : Bool) :
    (MapRequest std reg r body).1.2
        = (if collectedErrors std reg r body = [] then none
           else some (wrapError (collectedErrors std reg r body))) ∧
    ((MapRequest std reg r body).1.2 = none ↔
        ((ParseForm std r).2 = none ∧
         (body = true →
            (parseRequestBody std.mediaType reg.contentTypes (ParseForm std r).1).1.2 = none) ∧
         (parseAuthorizationHeader reg.authSchemes
            (headerGet r.Header "Authorization")).2 = none)) := by
  refine ⟨MapRequest_error_eq std reg r body, ?_⟩
  rw [MapRequest_error_eq]
  unfold collectedErrors
  rcases (ParseForm std r).2 with _ | ef <;>
  rcases (parseAuthorizationHeader reg.authSchemes (headerGet r.Header "Authorization")).2
    with _ | ea <;>
  cases body <;>
  rcases (parseRequestBody std.mediaType reg.contentTypes (ParseForm std r).1).1.2
    with _ | eb <;>
  simp

/-- Witness for C12: a request on which all three steps fail: the query string
cannot be parsed, the declared content type is malformed, and the parser
registered for the scheme rejects the credentials. -/
theorem MapRequest_error_witness :
    collectedErrors sampleStd ⟨[], [⟨"Auth", errParser⟩]⟩
        (newRequest "GET" "%1" [("Content-Type", ["?"]), ("Authorization", ["Auth x"])] "Hi") true
      = [GoError.plain "invalid URL escape", wrapError [GoError.plain "mime: no media type"],
          errDummy] ∧
    ((MapRequest sampleStd ⟨[], [⟨"Auth", errParser⟩]⟩
        (newRequest "GET" "%1" [("Content-Type", ["?"]), ("Authorization", ["Auth x"])] "Hi")
        true).1.2.map GoError.Error)
      = some "parse error,invalid URL escape,mime: no media type,dummy" ∧
    (MapRequest sampleStd ⟨[], [⟨"Auth", errParser⟩]⟩
        (newRequest "GET" "" [("Authorization", ["Auth x"])] "") true).1.2 ≠ none := by
  refine ⟨by decide, by decide, ?_⟩
  intro h
  have := ((MapRequest_error sampleStd ⟨[], [⟨"Auth", errParser⟩]⟩
    (newRequest "GET" "" [("Authorization", ["Auth x"])] "") true).2.1 h).2.2
  exact absurd this (by decide)

theorem foldl_set_ne_nil (m : Multimap) (init : Entries) (h : m ≠ [] ∨ init ≠ []) :
    m.foldl (fun out kv => Entries.set out kv.1 (collapse kv.2)) init ≠ [] := by
  induction m generalizing init with
  | nil =>
    rcases h with h | h
    · exact absurd rfl h
    · exact h
  | cons e m ih =>
    rw [List.foldl_cons]
    apply ih
    right
    cases init with
    | nil => simp [Entries.set]
    | cons a rest =>
      obtain ⟨k0, v0⟩ := a
      simp only [Entries.set]
      split <;> simp

theorem collectedErrors_of_rejected (std : Stdlib) (reg : Registry) (r : Request)
    (hdata : r.Body.data ≠ "") (herr : r.Body.err = none)
    (hct : headerGet r.Header "Content-Type" ≠ "")
    (hrej : (std.ParseMediaType (headerGet r.Header "Content-Type")).2 ≠ none) :
    collectedErrors std reg r true ≠ [] := by
  have key : (ParseForm std r).2 ≠ none ∨
      (parseRequestBody std.mediaType reg.contentTypes (ParseForm std r).1).1.2 ≠ none := by
    rcases parseFormPost_cases std r with ⟨hb, _⟩ | ⟨_, he, _, _⟩
    · right
      apply parseRequestBody_rejected
      · rw [ParseForm_body, hb]; exact hdata
      · rw [ParseForm_body, hb]; exact herr
      · rw [ParseForm_header]; exact hrej
    · left
      apply ParseForm_err_of_post
      rw [he]
      exact parsePostForm_err_of_rejected std r hct hrej
  unfold collectedErrors
  rcases key with h | h
  · obtain ⟨e, he⟩ := Option.ne_none_iff_exists'.1 h
    simp [he]
  · obtain ⟨e, he⟩ := Option.ne_none_iff_exists'.1 h
    simp [he]

/-! ## C13: the best-effort map -/

/-- C13: `MapRequest` always returns the best-effort map. For every request, flag
and catalog, also when the error is non-nil, the dict is non-nil and holds the
keys `version`, `method` and `path` with the protocol version, method and URL
path of the request, and `headers` with the mapped headers whenever the request
has at least one header. A declared content type that is rejected, such as `?`,
on a non-empty body with the body flag set gives a non-nil error and still
these keys. -/
theorem MapRequest_best_effort (std : Stdlib) (reg : Registry) (r : Request) (body : Bool) :
    ∃ out : Entries, (MapRequest std reg r body).1.1 = some out ∧
      out.get "version" = some (Value.str r.Proto) ∧
      out.get "method" = some (Value.str r.Method) ∧
      out.get "path" = some (Value.str r.Path) ∧
      (∀ m, r.Header = some m → m ≠ [] →
        ∃ es, es ≠ [] ∧ MapValues r.Header = some es ∧
          out.get "headers" = some (Value.dict (some es))) ∧
      (body = true → r.Body.data ≠ "" → r.Body.err = none →
        headerGet r.Header "Content-Type" ≠ "" →
        (std.ParseMediaType (headerGet r.Header "Content-Type")).2 ≠ none →
        (MapRequest std reg r body).1.2 ≠ none) := by
  refine ⟨_, MapRequest_dict std reg r body, ?_, ?_, ?_, ?_, ?_⟩
  · rw [requestEntries_get, requestBase_get]; simp
  · rw [requestEntries_get, requestBase_get]; simp
  · rw [requestEntries_get, requestBase_get]; simp
  · intro m hm hne
    refine ⟨_, foldl_set_ne_nil m [] (Or.inl hne), by rw [hm, MapValues_some], ?_⟩
    rw [requestEntries_get, requestBase_get, hm, MapValues_some]
    have h := foldl_set_ne_nil m [] (Or.inl hne)
    simp [omitEmpty, sectionValue, h, MapValues_some]
  · intro hb hdata herr hct hrej
    subst hb
    rw [MapRequest_error_eq]
    simp [collectedErrors_of_rejected std reg r hdata herr hct hrej]

/-- Witness for C13: a request with the malformed content type `?` on the
non-empty body `Hi`, with the body flag set. -/
theorem MapRequest_best_effort_witness :
    (MapRequest sampleStd ⟨[], []⟩ (newRequest "GET" "" [("Content-Type", ["?"])] "Hi") true).1
      = (some [("version", Value.str "HTTP/1.1"), ("method", Value.str "GET"),
          ("headers", Value.dict (some [("Content-Type", Value.str "?")])),
          ("path", Value.str "/")],
         some (wrapError [wrapError [GoError.plain "mime: no media type"]])) ∧
    (MapRequest sampleStd ⟨[], []⟩
        (newRequest "GET" "" [("Content-Type", ["?"])] "Hi") true).1.2 ≠ none := by
  obtain ⟨out, _, _, _, _, _, h⟩ := MapRequest_best_effort sampleStd ⟨[], []⟩
    (newRequest "GET" "" [("Content-Type", ["?"])] "Hi") true
  exact ⟨rfl, h rfl (by decide) rfl (by decide) (by decide)⟩

/-! ## The body stream through `MapRequest` -/

theorem MapRequest_request (std : Stdlib) (reg : Registry) (r : Request) (body : Bool) :
    (MapRequest std reg r body).2
      = if body then (parseRequestBody std.mediaType reg.contentTypes (ParseForm std r).1).2
        else (ParseForm std r).1 := by
  unfold MapRequest
  dsimp only
  split <;> simp only [mapBody_eq, mapForm_eq]

theorem parseRequestBody_body (P : String → Except GoError String) (cts : List contentType)
    (r : Request) :
    (parseRequestBody P cts r).2.Body
      = match r.Body.err with
        | none => ⟨r.Body.data, none⟩
        | some _ => r.Body.drained := by
  unfold parseRequestBody wrapReader ReadAll
  cases r.Body.err with
  | some e => rfl
  | none =>
    dsimp only
    split
    · rfl
    · split <;> rfl

theorem parseRequestBody_read_failure (P : String → Except GoError String)
    (cts : List contentType) (r : Request) (e : GoError) (herr : r.Body.err = some e) :
    (parseRequestBody P cts r).1 = (none, some (wrapError [e])) := by
  simp [parseRequestBody, wrapReader, ReadAll, herr]

theorem readAllLimit_err (r : Reader) (n : Nat) : (readAllLimit r n).2.2.err = r.err := by
  unfold readAllLimit
  split <;> rfl

theorem parsePostForm_rest (std : Stdlib) (r : Request) :
    (parsePostForm std r).2.2 = (readAllLimit r.Body (maxFormSize + 1)).2.2 ∨
    (parsePostForm std r).2.2 = r.Body := by
  unfold parsePostForm
  dsimp only
  generalize std.ParseMediaType
    (if headerGet r.Header "Content-Type" = "" then "application/octet-stream"
     else headerGet r.Header "Content-Type") = parsed
  by_cases hp : parsed.1 = "application/x-www-form-urlencoded"
  · left
    simp only [hp, if_true]
    rcases readAllLimit r.Body (maxFormSize + 1) with ⟨b, _ | e, rest⟩
    · dsimp only
      split <;> rfl
    · rfl
  · right
    simp only [hp, if_false]

theorem parsePostForm_body_err (std : Stdlib) (r : Request) :
    (parsePostForm std r).2.2.err = r.Body.err := by
  rcases parsePostForm_rest std r with h | h
  · rw [h, readAllLimit_err]
  · rw [h]

theorem ParseForm_body_err (std : Stdlib) (r : Request) :
    (ParseForm std r).1.Body.err = r.Body.err := by
  rw [ParseForm_body]
  rcases parseFormPost_cases std r with ⟨hb, _⟩ | ⟨hb, _, _, _⟩
  · rw [hb]
  · rw [hb, parsePostForm_body_err]

theorem parseFormPost_body_of_not_reads (std : Stdlib) (r : Request)
    (h : ¬ formReadsBody std r) : (parseFormPost std r).1.Body = r.Body := by
  rcases parseFormPost_cases std r with ⟨hb, _⟩ | ⟨hb, _, hpf, hm⟩
  · exact hb
  · rw [hb]
    have hct : formMediaType std r ≠ "application/x-www-form-urlencoded" :=
      fun hc => h ⟨hpf, hm, hc⟩
    unfold parsePostForm
    unfold formMediaType at hct
    simp only [hct, if_false]

theorem parseFormPost_body_of_reads (std : Stdlib) (r : Request)
    (h : formReadsBody std r) (hlen : r.Body.data.length ≤ maxFormSize) :
    (parseFormPost std r).1.Body = r.Body.drained := by
  obtain ⟨hpf, hm, hct⟩ := h
  unfold formMediaType at hct
  have hlim : readAllLimit r.Body (maxFormSize + 1) = (r.Body.data, r.Body.err, r.Body.drained) := by
    unfold readAllLimit
    rw [if_neg (by omega)]
  unfold parseFormPost
  rw [hpf]
  simp only [hm, if_true]
  unfold parsePostForm
  simp only [hct, if_true, hlim]
  cases r.Body.err with
  | some e => rfl
  | none =>
    dsimp only
    rw [if_neg (by omega)]

/-! ## C14: a failing body stream -/

/-- C14, counterexample: the body stream of the request fails after two bytes and
the body flag is set. `MapRequest` still returns the partial map, it goes on to
dispatch the Authorization header (stored under `authorization` for the unknown
scheme `foo`), and when the authorization parser fails as well the read error
is joined with its error in one composite. -/
theorem MapRequest_read_failure_not_fatal :
    (MapRequest sampleStd ⟨[], []⟩
        (newFailingRequest "GET" "" [("Authorization", ["foo bar"])] "ab"
          (GoError.plain "unexpected EOF")) true).1
      = (some [("version", Value.str "HTTP/1.1"), ("method", Value.str "GET"),
          ("headers", Value.dict (some [("Authorization", Value.str "foo bar")])),
          ("path", Value.str "/"),
          ("authorization", Value.dict (some [("foo", Value.str "bar")]))],
         some (wrapError [wrapError [GoError.plain "unexpected EOF"]])) ∧
    ((MapRequest sampleStd ⟨[], [⟨"Auth", errParser⟩]⟩
        (newFailingRequest "GET" "" [("Authorization", ["Auth x"])] "ab"
          (GoError.plain "unexpected EOF")) true).1.2.map GoError.Error)
      = some "parse error,unexpected EOF,dummy" :=
  ⟨rfl, by decide⟩

/-- C14, amended: a body read failure is not fatal, it is aggregated. When body
inspection is enabled and reading the request body stream fails, the body step
fails with the wrapped read error and stores no `body` key; `MapRequest` still
returns the partial map with `version`, `method` and `path`, still dispatches
the Authorization header, and returns the composite of the collected errors in
the order form, body, authorization. -/
theorem MapRequest_read_failure (std : Stdlib) (reg : Registry) (r : Request) (e : GoError)
    (herr : r.Body.err = some e) :
    ∃ out : Entries, (MapRequest std reg r true).1.1 = some out ∧
      out.get "version" = some (Value.str r.Proto) ∧
      out.get "method" = some (Value.str r.Method) ∧
      out.get "path" = some (Value.str r.Path) ∧
      out.get "body" = none ∧
      (parseRequestBody std.mediaType reg.contentTypes (ParseForm std r).1).1
        = (none, some (wrapError [e])) ∧
      (MapRequest std reg r true).1.2
        = some (wrapError ((ParseForm std r).2.toList ++ [wrapError [e]] ++
            (parseAuthorizationHeader reg.authSchemes
              (headerGet r.Header "Authorization")).2.toList)) ∧
      ((parseAuthorizationHeader reg.authSchemes (headerGet r.Header "Authorization")).2 = none →
        out.get "authorization" = sectionValue
          (parseAuthorizationHeader reg.authSchemes (headerGet r.Header "Authorization")).1) := by
  have hbody := parseRequestBody_read_failure std.mediaType reg.contentTypes (ParseForm std r).1 e
    (by rw [ParseForm_body_err]; exact herr)
  refine ⟨_, MapRequest_dict std reg r true, ?_, ?_, ?_, ?_, hbody, ?_, ?_⟩
  · rw [requestEntries_get, requestBase_get]; simp
  · rw [requestEntries_get, requestBase_get]; simp
  · rw [requestEntries_get, requestBase_get]; simp
  · rw [requestEntries_get, hbody]; simp
  · rw [MapRequest_error_eq]
    unfold collectedErrors
    rw [hbody]
    simp
  · intro hauth
    rw [requestEntries_get, hauth]
    simp

/-- Witness for C14, amended: the failing stream of the counterexample, on a
request without an Authorization header. -/
theorem MapRequest_read_failure_witness :
    (newFailingRequest "GET" "" [] "ab" (GoError.plain "unexpected EOF")).Body.err
      = some (GoError.plain "unexpected EOF") ∧
    ∃ out : Entries,
      (MapRequest sampleStd ⟨[], []⟩
        (newFailingRequest "GET" "" [] "ab" (GoError.plain "unexpected EOF")) true).1.1
        = some out ∧
      out.get "body" = none ∧
      (MapRequest sampleStd ⟨[], []⟩
        (newFailingRequest "GET" "" [] "ab" (GoError.plain "unexpected EOF")) true).1.2
        = some (wrapError [wrapError [GoError.plain "unexpected EOF"]]) := by
  obtain ⟨out, h1, _, _, _, h5, _, h7, _⟩ := MapRequest_read_failure sampleStd ⟨[], []⟩
    (newFailingRequest "GET" "" [] "ab" (GoError.plain "unexpected EOF"))
    (GoError.plain "unexpected EOF") rfl
  exact ⟨rfl, out, h1, h5, by rw [h7]; rfl⟩

/-! ## C15: omit-empty at the top level -/

theorem omitEmpty_eq_some (d : Dict) (es : Entries) (h : omitEmpty d = some es) : es ≠ [] := by
  cases d with
  | none => simp [omitEmpty] at h
  | some l =>
    simp only [omitEmpty] at h
    split at h
    · simp at h
    · rename_i hl
      simp only [Option.some.injEq] at h
      subst h
      intro hnil
      exact hl (by rw [hnil]; rfl)

theorem sectionValue_eq_some (d : Dict) (v : Value) (h : sectionValue d = some v) :
    ∃ es : Entries, d = some es ∧ v = Value.dict (some es) := by
  cases d with
  | none => simp [sectionValue] at h
  | some es =>
    simp only [sectionValue, Option.map_some', Option.some.injEq] at h
    exact ⟨es, rfl, h.symm⟩

theorem parseRequestBody_result (P : String → Except GoError String)
    (cts : List contentType) (r : Request) :
    (parseRequestBody P cts r).1
      = match r.Body.err with
        | some e => (none, some (wrapError [e]))
        | none =>
          if r.Body.data.length = 0 then (none, none)
          else
            match parseContent P cts (headerGet r.Header "Content-Type") r.Body.data with
            | (_, some err) => (none, some err)
            | (out, none) => (omitEmpty out, none) := by
  unfold parseRequestBody wrapReader ReadAll
  cases r.Body.err with
  | some e => rfl
  | none =>
    dsimp only
    split
    · rfl
    · split <;> rfl

theorem parseRequestBody_dict (P : String → Except GoError String) (cts : List contentType)
    (r : Request) (es : Entries) (h : (parseRequestBody P cts r).1.1 = some es) : es ≠ [] := by
  rw [parseRequestBody_result] at h
  cases hE : r.Body.err with
  | some e =>
    rw [hE] at h
    simp at h
  | none =>
    rw [hE] at h
    dsimp only at h
    by_cases hl : r.Body.data.length = 0
    · rw [if_pos hl] at h
      simp at h
    · rw [if_neg hl] at h
      rcases hp : parseContent P cts (headerGet r.Header "Content-Type") r.Body.data
        with ⟨out, _ | e⟩
      · rw [hp] at h
        exact omitEmpty_eq_some out es h
      · rw [hp] at h
        simp at h

theorem parseAuthorizationHeader_dict (cat : List authScheme) (hdr : String) (es : Entries)
    (h : (parseAuthorizationHeader cat hdr).1 = some es) : es ≠ [] := by
  by_cases hne : hdr = ""
  · subst hne
    simp [parseAuthorizationHeader] at h
  · rw [parseAuthorizationHeader_nonempty cat hdr hne] at h
    rcases hp : parseAuth cat (headerScheme hdr) (headerCredentials hdr) with ⟨v, _ | e⟩
    · rw [hp] at h
      simp only [Option.some.injEq] at h
      rw [← h]
      simp
    · rw [hp] at h
      simp at h

theorem parseRequestBody_empty_dict (P : String → Except GoError String)
    (cts : List contentType) (r : Request)
    (h : parseContent P cts (headerGet r.Header "Content-Type") r.Body.data = (some [], none)) :
    (parseRequestBody P cts r).1.1 = none := by
  unfold parseRequestBody wrapReader ReadAll
  cases r.Body.err with
  | some e => rfl
  | none =>
    dsimp only
    split
    · rfl
    · rw [h]
      rfl

/-- C15: omit-empty at the top level. For every request, flag and catalog, each of
the keys `headers`, `cookies`, `query`, `form`, `body` and `authorization` is
present in the output of `MapRequest` only with a non-empty map as its value.
A section whose map would be empty is absent: no headers, no cookies, no query
values, no form fields, a parser returning an empty dict for the body. -/
theorem MapRequest_omit_empty (std : Stdlib) (reg : Registry) (r : Request) (body : Bool) :
    ∃ out : Entries, (MapRequest std reg r body).1.1 = some out ∧
      (∀ k v, k ∈ ["headers", "cookies", "query", "form", "body", "authorization"] →
        out.get k = some v → ∃ es : Entries, es ≠ [] ∧ v = Value.dict (some es)) ∧
      ((r.Header = none ∨ r.Header = some []) → out.get "headers" = none) ∧
      (std.readCookies r.Header = [] → out.get "cookies" = none) ∧
      ((std.ParseQuery r.RawQuery).1 = [] → out.get "query" = none) ∧
      ((ParseForm std r).1.PostForm = some [] → out.get "form" = none) ∧
      (parseContent std.mediaType reg.contentTypes (headerGet r.Header "Content-Type")
          (ParseForm std r).1.Body.data = (some [], none) → out.get "body" = none) := by
  refine ⟨_, MapRequest_dict std reg r body, ?_, ?_, ?_, ?_, ?_, ?_⟩
  · intro k v hk hv
    rw [requestEntries_get, requestBase_get] at hv
    have hsec : ∀ d : Dict, sectionValue (omitEmpty d) = some v →
        ∃ es : Entries, es ≠ [] ∧ v = Value.dict (some es) := by
      intro d hd
      obtain ⟨es, h1, h2⟩ := sectionValue_eq_some _ v hd
      exact ⟨es, omitEmpty_eq_some d es h1, h2⟩
    simp only [List.mem_cons, List.mem_singleton, List.not_mem_nil, or_false] at hk
    rcases hk with rfl | rfl | rfl | rfl | rfl | rfl
    · simp only [String.reduceEq, if_false, if_true] at hv
      exact hsec _ hv
    · simp only [String.reduceEq, if_false, if_true] at hv
      exact hsec _ hv
    · simp only [String.reduceEq, if_false, if_true] at hv
      exact hsec _ hv
    · simp only [String.reduceEq, if_false, if_true] at hv
      split at hv
      · exact hsec _ hv
      · simp at hv
    · simp only [String.reduceEq, if_false, if_true] at hv
      split at hv
      · split at hv
        · obtain ⟨es, h1, h2⟩ := sectionValue_eq_some _ v hv
          exact ⟨es, parseRequestBody_dict _ _ _ es h1, h2⟩
        · simp at hv
      · simp at hv
    · simp only [if_true] at hv
      split at hv
      · obtain ⟨es, h1, h2⟩ := sectionValue_eq_some _ v hv
        exact ⟨es, parseAuthorizationHeader_dict _ _ es h1, h2⟩
      · simp at hv
  · intro h
    rw [requestEntries_get, requestBase_get]
    rcases h with h | h <;> simp [h, MapValues, omitEmpty, sectionValue]
  · intro h
    rw [requestEntries_get, requestBase_get]
    simp [h, mapCookies, omitEmpty, sectionValue]
  · intro h
    rw [requestEntries_get, requestBase_get]
    simp [h, MapValues, omitEmpty, sectionValue]
  · intro h
    rw [requestEntries_get]
    simp only [String.reduceEq, if_false, if_true]
    split
    · simp [h, MapValues, omitEmpty, sectionValue]
    · rfl
  · intro h
    rw [requestEntries_get]
    simp only [String.reduceEq, if_false, if_true]
    cases body
    · simp
    · simp only [if_true]
      have := parseRequestBody_empty_dict std.mediaType reg.contentTypes (ParseForm std r).1
        (by rw [ParseForm_header]; exact h)
      rw [this]
      split <;> rfl

/-- Witness for C15: a request without headers, cookies, query or form fields,
and one whose body parser returns the empty dict. -/
theorem MapRequest_omit_empty_witness :
    (MapRequest sampleStd ⟨[], []⟩ (newRequest "GET" "" [] "") true).1
      = (some [("version", Value.str "HTTP/1.1"), ("method", Value.str "GET"),
          ("path", Value.str "/")], none) ∧
    (MapRequest sampleStd ⟨[⟨"t", "x", emptyParser⟩], []⟩
        (newRequest "GET" "" [("Content-Type", ["t/x"])] "Hi") true).1
      = (some [("version", Value.str "HTTP/1.1"), ("method", Value.str "GET"),
          ("headers", Value.dict (some [("Content-Type", Value.str "t/x")])),
          ("path", Value.str "/")], none) ∧
    ∃ out : Entries,
      (MapRequest sampleStd ⟨[⟨"t", "x", emptyParser⟩], []⟩
        (newRequest "GET" "" [("Content-Type", ["t/x"])] "Hi") true).1.1 = some out ∧
      out.get "body" = none := by
  obtain ⟨out, h1, _, _, _, _, _, h7⟩ := MapRequest_omit_empty sampleStd
    ⟨[⟨"t", "x", emptyParser⟩], []⟩ (newRequest "GET" "" [("Content-Type", ["t/x"])] "Hi") true
  exact ⟨rfl, rfl, out, h1, h7 rfl⟩

/-! ## C16: re-reading the body after `MapRequest` -/

/-- C16, counterexample: a POST request with the content type
`application/x-www-form-urlencoded` whose body `foo=bar` supplies the form
field. The form step reads the body, so after `MapRequest` the body stream
delivers no bytes, with the body flag set or not (the test case `parameters` of
`TestEchoHandler`, which has the form field and no `body` key). -/
theorem MapRequest_form_body_consumed :
    (MapRequest sampleStd ⟨[], []⟩
        (newRequest "POST" "" [("Content-Type", ["application/x-www-form-urlencoded"])] "foo=bar")
        true).1
      = (some [("version", Value.str "HTTP/1.1"), ("method", Value.str "POST"),
          ("headers", Value.dict
            (some [("Content-Type", Value.str "application/x-www-form-urlencoded")])),
          ("path", Value.str "/"),
          ("form", Value.dict (some [("foo", Value.str "bar")]))], none) ∧
    ReadAll (newRequest "POST" "" [("Content-Type", ["application/x-www-form-urlencoded"])]
        "foo=bar").Body = ("foo=bar", none) ∧
    ReadAll (MapRequest sampleStd ⟨[], []⟩
        (newRequest "POST" "" [("Content-Type", ["application/x-www-form-urlencoded"])] "foo=bar")
        true).2.Body = ("", none) ∧
    ReadAll (MapRequest sampleStd ⟨[], []⟩
        (newRequest "POST" "" [("Content-Type", ["application/x-www-form-urlencoded"])] "foo=bar")
        false).2.Body = ("", none) ∧
    ReadAll (MapRequest sampleStd ⟨[], []⟩
        (newRequest "POST" "" [("Content-Type", ["application/x-www-form-urlencoded"])] "foo=bar")
        true).2.Body
      ≠ ReadAll (newRequest "POST" "" [("Content-Type", ["application/x-www-form-urlencoded"])]
        "foo=bar").Body := by
  refine ⟨rfl, rfl, rfl, rfl, ?_⟩
  have h1 : ReadAll (MapRequest sampleStd ⟨[], []⟩
      (newRequest "POST" "" [("Content-Type", ["application/x-www-form-urlencoded"])] "foo=bar")
      true).2.Body = ("", none) := rfl
  have h2 : ReadAll (newRequest "POST" ""
      [("Content-Type", ["application/x-www-form-urlencoded"])] "foo=bar").Body
      = ("foo=bar", none) := rfl
  rw [h1, h2]
  decide

/-- C16, amended: for every request whose body stream reads without error and
whose body the form step does not read (the request is not a POST, PUT or PATCH
request with the media type `application/x-www-form-urlencoded`, or its
`PostForm` is already set), re-reading the body after `MapRequest` yields
exactly the bytes it held before, with the body flag set or not. When the form
step does read the body, of at most 10 MB, re-reading it after `MapRequest`
yields no bytes. -/
theorem MapRequest_body_round_trip (std : Stdlib) (reg : Registry) (r : Request) (body : Bool)
    (herr : r.Body.err = none) :
    (¬ formReadsBody std r →
        ReadAll (MapRequest std reg r body).2.Body = (r.Body.data, none) ∧
        ReadAll (MapRequest std reg r body).2.Body = ReadAll r.Body) ∧
    (formReadsBody std r → r.Body.data.length ≤ maxFormSize →
        ReadAll (MapRequest std reg r body).2.Body = ("", none)) := by
  have hfinal : ∀ b : Reader, (ParseForm std r).1.Body = b → b.err = none →
      ReadAll (MapRequest std reg r body).2.Body = (b.data, none) := by
    intro b hb hbe
    rw [MapRequest_request]
    cases body
    · simp only [Bool.false_eq_true, if_false, hb, ReadAll, hbe]
    · simp only [if_true, parseRequestBody_body, hb, hbe, ReadAll]
  constructor
  · intro hnot
    have h := hfinal r.Body
      (by rw [ParseForm_body, parseFormPost_body_of_not_reads std r hnot]) herr
    exact ⟨h, by rw [h, ReadAll, herr]⟩
  · intro hreads hlen
    exact hfinal r.Body.drained
      (by rw [ParseForm_body, parseFormPost_body_of_reads std r hreads hlen]) herr

/-- Witness for C16, amended: a POST request with a JSON-like content type, whose
body the form step leaves alone, and the form request of the counterexample. -/
theorem MapRequest_body_round_trip_witness :
    (newRequest "POST" "" [("Content-Type", ["t/x"])] "hello").Body.err = none ∧
    ¬ formReadsBody sampleStd (newRequest "POST" "" [("Content-Type", ["t/x"])] "hello") ∧
    ReadAll (MapRequest sampleStd ⟨[⟨"t", "x", dummmyParser⟩], []⟩
        (newRequest "POST" "" [("Content-Type", ["t/x"])] "hello") true).2.Body
      = ("hello", none) ∧
    formReadsBody sampleStd
      (newRequest "POST" "" [("Content-Type", ["application/x-www-form-urlencoded"])] "foo=bar") ∧
    ReadAll (MapRequest sampleStd ⟨[], []⟩
        (newRequest "POST" "" [("Content-Type", ["application/x-www-form-urlencoded"])] "foo=bar")
        true).2.Body = ("", none) := by
  have hnot : ¬ formReadsBody sampleStd
      (newRequest "POST" "" [("Content-Type", ["t/x"])] "hello") := by
    rintro ⟨_, _, h⟩
    revert h
    decide
  have hreads : formReadsBody sampleStd
      (newRequest "POST" "" [("Content-Type", ["application/x-www-form-urlencoded"])]
        "foo=bar") :=
    ⟨rfl, Or.inl rfl, by decide⟩
  exact ⟨rfl, hnot,
    ((MapRequest_body_round_trip sampleStd ⟨[⟨"t", "x", dummmyParser⟩], []⟩
      (newRequest "POST" "" [("Content-Type", ["t/x"])] "hello") true rfl).1 hnot).1,
    hreads,
    (MapRequest_body_round_trip sampleStd ⟨[], []⟩
      (newRequest "POST" "" [("Content-Type", ["application/x-www-form-urlencoded"])] "foo=bar")
      true rfl).2 hreads (by decide)⟩

/-! ## C21: lookups across a registration -/

theorem parseContentLoop_append (a b : List contentType) (main sub content : String) :
    parseContentLoop (a ++ b) main sub content
      = if decides (parseContentLoop a main sub content) then parseContentLoop a main sub content
        else parseContentLoop b main sub content := by
  induction a with
  | nil => simp [parseContentLoop, decides]
  | cons c a ih =>
    rw [List.cons_append, parseContentLoop, ih]
    conv_rhs => rw [parseContentLoop]
    by_cases hc : c.candidate main sub = true
    · by_cases hd : decides (c.parser content) = true
      · simp [hc, hd]
      · simp [hc, hd]
    · simp [hc]

theorem parseAuth_append (a b : List authScheme) (scheme credentials : String) :
    parseAuth (a ++ b) scheme credentials
      = if decides (parseAuth a scheme credentials) then parseAuth a scheme credentials
        else parseAuth b scheme credentials := by
  induction a with
  | nil => simp [parseAuth, decides]
  | cons c a ih =>
    rw [List.cons_append, parseAuth, ih]
    conv_rhs => rw [parseAuth]
    by_cases hc : c.scheme = scheme
    · by_cases hd : decides (c.parser credentials) = true
      · simp [hc, hd]
      · simp [hc, hd]
    · simp [hc]

theorem parseContentLoop_single (c : contentType) (main sub content : String)
    (hc : c.candidate main sub = true) :
    parseContentLoop [c] main sub content = c.parser content := by
  simp only [parseContentLoop, hc, if_true]
  by_cases hd : decides (c.parser content) = true
  · simp [hd]
  · simp only [hd]
    exact ((decides_eq_false_iff _).1 (by simpa using hd)).symm

theorem parseAuth_single (a : authScheme) (credentials : String) :
    parseAuth [a] a.scheme credentials = a.parser credentials := by
  simp only [parseAuth, if_true]
  by_cases hd : decides (a.parser credentials) = true
  · simp [hd]
  · simp only [hd]
    exact ((decides_eq_false_iff _).1 (by simpa using hd)).symm

theorem candidate_self (c : contentType) : c.candidate c.main c.sub = true := by
  simp only [contentType.candidate, Bool.and_eq_true, Bool.or_eq_true, decide_eq_true_eq,
    hasPrefix_iff, hasSuffix_iff]
  exact ⟨trivial, Or.inl ⟨"", by simp⟩⟩

/-- C21: a registration never changes a lookup that was already decided. For every
catalog, every successfully registered `(cty, p)` and every lookup
`(cty', content)`: if `parseContent` returned a non-nil dict or an error before
the registration, it returns the same afterwards; if it returned `(nil, nil)`
and `cty'` matches the new entry, it returns `p(content)` afterwards. In
particular `parseContent(cty, content)` is `p(content)` after registering
`(cty, p)` on a catalog with no deciding entry for `cty`. The same holds for
`RegisterAuthScheme` and `parseAuth`. -/
theorem register_keeps_decided (P : String → Except GoError String) (reg : Registry)
    (cty cty' content scheme scheme' : String) (p : ParserFunc)
    (hreg : (RegisterContentType P reg cty p).2 = none) :
    (((parseContent P reg.contentTypes cty' content).1 ≠ none ∨
        (parseContent P reg.contentTypes cty' content).2 ≠ none) →
      parseContent P (RegisterContentType P reg cty p).1.contentTypes cty' content
        = parseContent P reg.contentTypes cty' content) ∧
    (parseContent P reg.contentTypes cty' content = (none, none) →
      (contentType.mk (parseContentType P cty).1 (parseContentType P cty).2.1 p).candidate
        (parseContentType P cty').1 (parseContentType P cty').2.1 = true →
      parseContent P (RegisterContentType P reg cty p).1.contentTypes cty' content
        = p content) ∧
    (parseContent P reg.contentTypes cty content = (none, none) →
      parseContent P (RegisterContentType P reg cty p).1.contentTypes cty content
        = p content) ∧
    (((parseAuth reg.authSchemes scheme' content).1 ≠ none ∨
        (parseAuth reg.authSchemes scheme' content).2 ≠ none) →
      parseAuth (RegisterAuthScheme reg scheme p).authSchemes scheme' content
        = parseAuth reg.authSchemes scheme' content) ∧
    (parseAuth reg.authSchemes scheme content = (none, none) →
      parseAuth (RegisterAuthScheme reg scheme p).authSchemes scheme content = p content) := by
  have hcat : (RegisterContentType P reg cty p).1.contentTypes
      = reg.contentTypes ++ [⟨(parseContentType P cty).1, (parseContentType P cty).2.1, p⟩] := by
    rcases hp : parseContentType P cty with ⟨m, s, _ | e⟩
    · simp [RegisterContentType, hp]
    · simp [RegisterContentType, hp] at hreg
  have hlookup : ∀ c : String,
      parseContent P reg.contentTypes c content = (none, none) →
      (contentType.mk (parseContentType P cty).1 (parseContentType P cty).2.1 p).candidate
        (parseContentType P c).1 (parseContentType P c).2.1 = true →
      parseContent P (RegisterContentType P reg cty p).1.contentTypes c content = p content := by
    intro c hnone hcand
    rw [hcat]
    rcases hp : parseContentType P c with ⟨m, s, _ | e⟩
    · rw [hp] at hcand
      rw [parseContent_of_type P _ c content m s hp] at hnone ⊢
      rw [parseContentLoop_append, hnone]
      simp only [decides, Option.isSome_none, Bool.or_self, Bool.false_eq_true, if_false]
      exact parseContentLoop_single _ m s content hcand
    · simp [parseContent, hp] at hnone
  refine ⟨?_, hlookup cty', ?_, ?_, ?_⟩
  · intro hdec
    rw [hcat]
    rcases hp : parseContentType P cty' with ⟨m, s, _ | e⟩
    · rw [parseContent_of_type P _ cty' content m s hp] at hdec ⊢
      rw [parseContent_of_type P _ cty' content m s hp, parseContentLoop_append,
        (decides_eq_true_iff _).2 hdec]
      simp
    · simp [parseContent, hp]
  · intro hnone
    exact hlookup cty hnone (candidate_self _)
  · intro hdec
    show parseAuth (reg.authSchemes ++ [⟨scheme, p⟩]) scheme' content = _
    rw [parseAuth_append, (decides_eq_true_iff _).2 hdec]
    simp
  · intro hnone
    show parseAuth (reg.authSchemes ++ [⟨scheme, p⟩]) scheme content = _
    rw [parseAuth_append, hnone]
    simp only [decides, Option.isSome_none, Bool.or_self, Bool.false_eq_true, if_false]
    exact parseAuth_single ⟨scheme, p⟩ content

/-- Witness for C21: the test case `normal` of `TestRegisterContentType`, on a
catalog that already holds an entry without an opinion for the same type. -/
theorem register_keeps_decided_witness :
    (RegisterContentType sampleMediaType ⟨[⟨"application", "dummy", nopParser⟩], []⟩
        "application/dummy" dummmyParser).2 = none ∧
    parseContent sampleMediaType [⟨"application", "dummy", nopParser⟩] "application/dummy" "hello"
      = (none, none) ∧
    parseContent sampleMediaType
        (RegisterContentType sampleMediaType ⟨[⟨"application", "dummy", nopParser⟩], []⟩
          "application/dummy" dummmyParser).1.contentTypes "application/dummy" "hello"
      = (some [("dummy", Value.str "hello")], none) :=
  ⟨rfl, rfl,
   (register_keeps_decided sampleMediaType ⟨[⟨"application", "dummy", nopParser⟩], []⟩
      "application/dummy" "application/dummy" "hello" "Bearer" "Bearer" dummmyParser rfl).2.2.1
      rfl⟩

/-! ## C22: optional parsers -/

/-- C22: for every parser `p` and every input, `p.Optional()` returns a nil error,
and the dict it returns is the dict `p` returned for that input, nil when `p`
returned a nil dict with its error. -/
theorem Optional_spec (p : ParserFunc) (input : String) :
    (p.Optional input).2 = none ∧ (p.Optional input).1 = (p input).1 ∧
    ((p input).1 = none → p.Optional input = (none, none)) ∧
    errParser.Optional input = (none, none) := by
  refine ⟨rfl, rfl, ?_, rfl⟩
  intro h
  simp [ParserFunc.Optional, h]

/-- Witness for C22: a parser that fails with a nil dict. -/
theorem Optional_spec_witness :
    (errParser "x").1 = none ∧ errParser.Optional "x" = (none, none) :=
  ⟨rfl, (Optional_spec errParser "x").2.2.1 rfl⟩

/-! ## C27: `MapValues` on the nil and the empty multimap -/

/-- C27: for the nil multimap and for the empty multimap `MapValues` returns an
empty dict that is not nil, and `MapValues` never returns nil. -/
theorem MapValues_never_nil (input : Option (List (String × List String))) :
    MapValues none = some [] ∧ MapValues (some []) = some [] ∧
    MapValues input ≠ none ∧ (MapValues input).isSome = true := by
  refine ⟨rfl, rfl, ?_, ?_⟩ <;> cases input <;> simp [MapValues]

/-! ## C23 and C29: the token parser -/

theorem ParseJWT_cases (codec : Codec) (input : String) :
    (∃ err, ParseJWT codec input = (none, some err)) ∨
    (∃ hd pl, ParseJWT codec input
      = (some [("header", Value.dict hd), ("payload", Value.dict pl),
          ("verified", Value.bool false)], none)) := by
  unfold ParseJWT
  rcases codec.jwtParse input with ⟨_ | t, err⟩
  · exact Or.inl ⟨_, rfl⟩
  · dsimp only
    cases t.Claims with
    | none => exact Or.inl ⟨_, rfl⟩
    | some claims => exact Or.inr ⟨_, _, rfl⟩

theorem ParseJWT_dict_of_error (codec : Codec) (input : String)
    (h : (ParseJWT codec input).2 ≠ none) : (ParseJWT codec input).1 = none := by
  rcases ParseJWT_cases codec input with ⟨err, he⟩ | ⟨hd, pl, he⟩
  · rw [he]
  · rw [he] at h
    exact absurd rfl h

theorem applicationRegistry_authSchemes (P : String → Except GoError String) (codec : Codec) :
    (applicationRegistry P codec).authSchemes = [⟨"Bearer", (ParseJWT codec).Optional⟩] := by
  unfold applicationRegistry RegisterAuthScheme RegisterContentType
  rcases parseContentType P "application/json" with ⟨m1, s1, _ | e1⟩ <;>
    rcases parseContentType P "application/jwt" with ⟨m2, s2, _ | e2⟩ <;> rfl

/-- C23: with the application's registration of `Bearer` as `ParseJWT` wrapped by
`Optional`, a bearer credential that is not a decodable token is passed through
raw. For every credentials string on which `ParseJWT` fails,
`parseAuthorizationHeader("Bearer " + credentials)` returns
`{Bearer: credentials}` and no error; `Authorization: Bearer dummy` maps to
`authorization → {Bearer: "dummy"}` with no composite error. -/
theorem bearer_passthrough (P : String → Except GoError String) (codec : Codec)
    (credentials : String) (hfail : (ParseJWT codec credentials).2 ≠ none) :
    parseAuthorizationHeader (applicationRegistry P codec).authSchemes
        ("Bearer " ++ credentials)
      = (some [("Bearer", Value.str credentials)], none) ∧
    (ParseJWT sampleCodec "dummy").2 ≠ none ∧
    (MapRequest sampleStd (applicationRegistry sampleStd.mediaType sampleCodec)
        (newRequest "POST" ""
          [("Content-Type", ["application/json"]), ("Authorization", ["Bearer dummy"])]
          "\x7b\"foo\":\"bar\"\x7d") true).1
      = (some [("version", Value.str "HTTP/1.1"), ("method", Value.str "POST"),
          ("headers", Value.dict (some [("Content-Type", Value.str "application/json"),
            ("Authorization", Value.str "Bearer dummy")])),
          ("path", Value.str "/"),
          ("body", Value.dict (some [("foo", Value.str "bar")])),
          ("authorization", Value.dict (some [("Bearer", Value.str "dummy")]))], none) := by
  refine ⟨?_, by decide, rfl⟩
  have hne : "Bearer " ++ credentials ≠ "" := by
    intro h
    have := congrArg String.length h
    simp [String.length_append] at this
    exact absurd this.1 (by decide)
  have hsplit := header_split_unique "Bearer" credentials (by decide)
  have hlit : ("Bearer " : String) = "Bearer" ++ " " := by decide
  rw [applicationRegistry_authSchemes, parseAuthorizationHeader_nonempty _ _ hne, hlit,
    hsplit.1, hsplit.2]
  have hopt : (ParseJWT codec).Optional credentials = (none, none) := by
    simp [ParserFunc.Optional, ParseJWT_dict_of_error codec credentials hfail]
  simp [parseAuth, hopt, decides, authorizationValue, omitEmpty]

/-- Witness for C23: the credentials `dummy`, on which the token parser fails. -/
theorem bearer_passthrough_witness :
    (ParseJWT sampleCodec "dummy").2 ≠ none ∧
    parseAuthorizationHeader (applicationRegistry sampleMediaType sampleCodec).authSchemes
        ("Bearer " ++ "dummy")
      = (some [("Bearer", Value.str "dummy")], none) :=
  ⟨by decide, (bearer_passthrough sampleMediaType sampleCodec "dummy" (by decide)).1⟩

/-- C29: `ParseJWT` never reports a token as verified. For every input on which
it returns a dict, the dict has exactly the keys `header`, `payload` and
`verified`, and `verified` is false, whatever the library made of the token's
algorithm and signature. On an input for which the library gives no token, as
it does for a string that is not a three-part token, such as `invalid` or the
empty input, `ParseJWT` returns a nil dict and an error. -/
theorem ParseJWT_never_verified (codec : Codec) (input : String) :
    (∀ es, (ParseJWT codec input).1 = some es →
      (∃ hd pl, es = [("header", Value.dict hd), ("payload", Value.dict pl),
          ("verified", Value.bool false)]) ∧
      es.map Prod.fst = ["header", "payload", "verified"] ∧
      es.get "verified" = some (Value.bool false) ∧
      (ParseJWT codec input).2 = none) ∧
    (∀ err, codec.jwtParse input = (none, some err) →
      ParseJWT codec input = (none, some (wrapError [err]))) ∧
    ((ParseJWT sampleCodec "invalid").1 = none ∧ (ParseJWT sampleCodec "invalid").2 ≠ none) ∧
    ((ParseJWT sampleCodec "").1 = none ∧ (ParseJWT sampleCodec "").2 ≠ none) := by
  refine ⟨?_, ?_, ⟨rfl, by decide⟩, ⟨rfl, by decide⟩⟩
  · intro es hes
    rcases ParseJWT_cases codec input with ⟨err, he⟩ | ⟨hd, pl, he⟩
    · rw [he] at hes
      simp at hes
    · rw [he] at hes ⊢
      simp only [Option.some.injEq] at hes
      subst hes
      exact ⟨⟨hd, pl, rfl⟩, rfl, rfl, rfl⟩
  · intro err herr
    simp [ParseJWT, herr]

/-- Witness for C29: a token whose claims the library decoded, with the algorithm
`none` in its header. -/
theorem ParseJWT_never_verified_witness :
    (ParseJWT ⟨sampleJsonRead, sampleCodec.jsonMarshal,
        fun _ => (some ⟨some [("alg", Value.str "none")], some [("iss", Value.str "joe")]⟩,
          some (GoError.plain "'none' signature type is not allowed"))⟩ "a.b.").1
      = some [("header", Value.dict (some [("alg", Value.str "none")])),
          ("payload", Value.dict (some [("iss", Value.str "joe")])),
          ("verified", Value.bool false)] ∧
    Entries.get [("header", Value.dict (some [("alg", Value.str "none")])),
      ("payload", Value.dict (some [("iss", Value.str "joe")])),
      ("verified", Value.bool false)] "verified" = some (Value.bool false) :=
  ⟨rfl, ((ParseJWT_never_verified ⟨sampleJsonRead, sampleCodec.jsonMarshal,
        fun _ => (some ⟨some [("alg", Value.str "none")], some [("iss", Value.str "joe")]⟩,
          some (GoError.plain "'none' signature type is not allowed"))⟩ "a.b.").1 _ rfl).2.2.1⟩

/-! ## C30: `ParseJSON` -/

theorem toEntries_get (members : List (String × Json)) (init : Entries) (k : String) :
    (Json.toEntries members init).get k
      = match members.reverse.lookup k with
        | some j => some j.toValue
        | none => init.get k := by
  induction members generalizing init with
  | nil => simp [Json.toEntries]
  | cons m rest ih =>
    obtain ⟨k0, j0⟩ := m
    rw [Json.toEntries, ih, List.reverse_cons, List.lookup_append, Entries.get_set]
    cases hl : rest.reverse.lookup k with
    | some j => simp
    | none =>
      by_cases hk : k0 = k
      · subst hk
        simp [List.lookup_cons]
      · have hb : (k == k0) = false := by simpa using Ne.symm hk
        simp [List.lookup_cons, hb, hk]

/-- C30, counterexample: the input `null` is not a JSON object, and `ParseJSON`
returns a nil dict without an error for it. -/
theorem ParseJSON_null_no_error :
    sampleJsonRead "null" = Except.ok Json.null ∧
    ParseJSON sampleCodec "null" = (none, none) ∧
    (ParseJSON sampleCodec "null").2 = none :=
  ⟨rfl, rfl, rfl⟩

/-- C30, amended: `ParseJSON` preserves numeric literals exactly. For every input
that reads as a JSON object, the value stored for a member that is a number
literal (the last member of that name) is the literal's own text, a
`json.Number`; the object with the member `exp` of literal `1300819380` yields
`exp` with the text `1300819380`. For input that does not read as JSON (`not a
json`, the empty input), and for a JSON array, string, number or boolean,
`ParseJSON` returns a nil dict and an error; for the JSON value `null` it
returns a nil dict and no error. -/
theorem ParseJSON_numbers (codec : Codec) (input : String) :
    (∀ members, codec.jsonRead input = Except.ok (Json.object members) →
      ∃ out : Entries, ParseJSON codec input = (some out, none) ∧
        ∀ k literal, members.reverse.lookup k = some (Json.number literal) →
          out.get k = some (Value.num literal)) ∧
    (∀ err, codec.jsonRead input = Except.error err →
      ParseJSON codec input = (none, some (wrapError [err]))) ∧
    (∀ j, codec.jsonRead input = Except.ok j → j.kind ≠ "object" → j.kind ≠ "null" →
      (ParseJSON codec input).1 = none ∧ (ParseJSON codec input).2 ≠ none) ∧
    (codec.jsonRead input = Except.ok Json.null → ParseJSON codec input = (none, none)) ∧
    ParseJSON sampleCodec "\x7b\"exp\":1300819380\x7d"
      = (some [("exp", Value.num "1300819380")], none) ∧
    ((ParseJSON sampleCodec "not a json").1 = none ∧
      (ParseJSON sampleCodec "not a json").2 ≠ none) ∧
    ((ParseJSON sampleCodec "").1 = none ∧ (ParseJSON sampleCodec "").2 ≠ none) := by
  refine ⟨?_, ?_, ?_, ?_, rfl, ⟨rfl, by decide⟩, ⟨rfl, by decide⟩⟩
  · intro members hread
    refine ⟨Json.toEntries members [], by simp [ParseJSON, hread, decodeDict], ?_⟩
    intro k literal hk
    rw [toEntries_get, hk]
    rfl
  · intro err hread
    simp [ParseJSON, hread]
  · intro j hread hobj hnull
    cases j <;> simp [ParseJSON, hread, decodeDict, Json.kind] at hobj hnull ⊢
  · intro hread
    simp [ParseJSON, hread, decodeDict]

/-- Witness for C30, amended: the test case `normal` of `TestParseJSON`. -/
theorem ParseJSON_numbers_witness :
    sampleJsonRead
        "\x7b\"iss\":\"joe\",\"exp\":1300819380,\"http://example.com/is_root\":true\x7d"
      = Except.ok (Json.object [("iss", Json.string "joe"), ("exp", Json.number "1300819380"),
          ("http://example.com/is_root", Json.bool true)]) ∧
    ∃ out : Entries,
      ParseJSON sampleCodec
          "\x7b\"iss\":\"joe\",\"exp\":1300819380,\"http://example.com/is_root\":true\x7d"
        = (some out, none) ∧
      out.get "exp" = some (Value.num "1300819380") := by
  obtain ⟨out, h1, h2⟩ := (ParseJSON_numbers sampleCodec
    "\x7b\"iss\":\"joe\",\"exp\":1300819380,\"http://example.com/is_root\":true\x7d").1
    [("iss", Json.string "joe"), ("exp", Json.number "1300819380"),
      ("http://example.com/is_root", Json.bool true)] rfl
  exact ⟨rfl, out, h1, h2 "exp" "1300819380" rfl⟩

/-! ## C24 and C25: the body steps -/

theorem parseResponseBody_result (P : String → Except GoError String)
    (cts : List contentType) (r : Response) :
    (parseResponseBody P cts r).1
      = match r.Body.err with
        | some e => (none, some (wrapError [e]))
        | none =>
          match parseContent P cts (headerGet r.Header "Content-Type") r.Body.data with
          | (_, some err) => (none, some err)
          | (out, none) => (omitEmpty out, none) := by
  unfold parseResponseBody wrapReader ReadAll
  cases r.Body.err with
  | some e => rfl
  | none =>
    dsimp only
    split <;> rfl

/-- C24: on a request with an empty body `parseRequestBody` returns `(nil, nil)`
without handing the body to the parser selected by the Content-Type header. In
the test case `error` of `Test_parseRequestBody` the registered parser rejects
the empty input, so that dispatching the body gives an error, and the function
returns none. -/
theorem parseRequestBody_empty_body (P : String → Except GoError String)
    (cts : List contentType) (r : Request) (hbody : r.Body = ⟨"", none⟩) :
    (parseRequestBody P cts r).1 = (none, none) ∧
    strictParser "" = (none, some errDummy) ∧
    parseContent sampleMediaType [⟨"test", "x", strictParser⟩] "test/x" ""
      = (none, some errDummy) ∧
    (parseRequestBody sampleMediaType [⟨"test", "x", strictParser⟩]
        (newRequest "POST" "" [("Content-Type", ["test/x"])] "")).1 = (none, none) ∧
    (parseRequestBody sampleMediaType [⟨"test", "x", strictParser⟩]
        (newRequest "POST" "" [("Content-Type", ["test/x"])] "Ready")).1
      = (some [("dummy", Value.str "Ready")], none) := by
  refine ⟨?_, rfl, rfl, rfl, rfl⟩
  rw [parseRequestBody_result, hbody]
  rfl

/-- Witness for C24: the request of the test case `error`. -/
theorem parseRequestBody_empty_body_witness :
    (newRequest "POST" "" [("Content-Type", ["test/x"])] "").Body = ⟨"", none⟩ ∧
    (parseRequestBody sampleMediaType [⟨"test", "x", strictParser⟩]
        (newRequest "POST" "" [("Content-Type", ["test/x"])] "")).1 = (none, none) :=
  ⟨rfl, (parseRequestBody_empty_body sampleMediaType [⟨"test", "x", strictParser⟩]
      (newRequest "POST" "" [("Content-Type", ["test/x"])] "") rfl).1⟩

/-- C25: the response body step and the request body step return the same dict
and error for every non-empty body that reads without error, every Content-Type
and every catalog. On an empty body they differ: `parseResponseBody`
dispatches the empty body, and fails when the registered parser rejects it or
when the Content-Type is missing or malformed, whereas `parseRequestBody`
returns `(nil, nil)`. -/
theorem body_steps_compared (P : String → Except GoError String) (cts : List contentType)
    (proto : String) (code : Int) (req : Request) (data : String) (hne : data ≠ "")
    (hbody : req.Body = ⟨data, none⟩) :
    (parseResponseBody P cts ⟨proto, code, req.Header, ⟨data, none⟩⟩).1
      = (parseRequestBody P cts req).1 ∧
    ((parseResponseBody sampleMediaType [⟨"test", "x", strictParser⟩]
        ⟨"HTTP/1.1", 200, some [("Content-Type", ["test/x"])], ⟨"", none⟩⟩).1
      = (none, some errDummy) ∧
     (parseRequestBody sampleMediaType [⟨"test", "x", strictParser⟩]
        (newRequest "POST" "" [("Content-Type", ["test/x"])] "")).1 = (none, none)) ∧
    ((parseResponseBody sampleMediaType [] ⟨"HTTP/1.1", 200, some [], ⟨"", none⟩⟩).1
      = (none, some (wrapError [GoError.plain "mime: no media type"])) ∧
     (parseRequestBody sampleMediaType [] (newRequest "POST" "" [] "")).1 = (none, none)) ∧
    ((parseResponseBody sampleMediaType []
        ⟨"HTTP/1.1", 200, some [("Content-Type", ["?"])], ⟨"", none⟩⟩).1
      = (none, some (wrapError [GoError.plain "mime: no media type"])) ∧
     (parseRequestBody sampleMediaType []
        (newRequest "POST" "" [("Content-Type", ["?"])] "")).1 = (none, none)) := by
  refine ⟨?_, ⟨rfl, rfl⟩, ⟨rfl, rfl⟩, ⟨rfl, rfl⟩⟩
  have hlen : ¬ data.length = 0 := fun h => hne ((string_length_eq_zero_iff _).1 h)
  rw [parseResponseBody_result, parseRequestBody_result, hbody]
  simp only [hlen, if_false]

/-- Witness for C25: the test case `normal` of `Test_parseResponseBody`, with the
request that has the same header and body. -/
theorem body_steps_compared_witness :
    "Hi" ≠ "" ∧
    (parseResponseBody sampleMediaType [⟨"test", "x", strictParser⟩]
        ⟨"HTTP/1.1", 200, some [("Content-Type", ["test/x"])], ⟨"Hi", none⟩⟩).1
      = (parseRequestBody sampleMediaType [⟨"test", "x", strictParser⟩]
          (newRequest "POST" "" [("Content-Type", ["test/x"])] "Hi")).1 :=
  ⟨by decide, (body_steps_compared sampleMediaType [⟨"test", "x", strictParser⟩] "HTTP/1.1" 200
      (newRequest "POST" "" [("Content-Type", ["test/x"])] "Hi") "Hi" (by decide) rfl).1⟩

/-! ## C26: the echo handler -/

/-- C26: the echo handler reports partial failures without dropping the partial
body. For every request for which the serialisation of the map succeeds,
`ServeHTTP` on a fresh response writer responds with status 400 and an
`X-Error` header carrying the text of the composite error exactly when
`MapRequest` returns an error, and with status 200 and no `X-Error` header
otherwise; in both cases the response body is the serialisation of the map
`MapRequest` returned. When the serialisation fails the status is 500. -/
theorem ServeHTTP_reports (std : Stdlib) (codec : Codec) (reg : Registry) (h : handler)
    (r : Request) :
    (∀ data, codec.jsonMarshal (MapRequest std reg r h.body).1.1 = Except.ok data →
      (handler.ServeHTTP std codec reg h NewRecorder r).Body = data ∧
      (∀ err, (MapRequest std reg r h.body).1.2 = some err →
        (handler.ServeHTTP std codec reg h NewRecorder r).Code = 400 ∧
        (handler.ServeHTTP std codec reg h NewRecorder r).Header.lookup "X-Error"
          = some [err.Error]) ∧
      ((MapRequest std reg r h.body).1.2 = none →
        (handler.ServeHTTP std codec reg h NewRecorder r).Code = 200 ∧
        (handler.ServeHTTP std codec reg h NewRecorder r).Header.lookup "X-Error" = none) ∧
      ((handler.ServeHTTP std codec reg h NewRecorder r).Code = 400 ↔
        (MapRequest std reg r h.body).1.2 ≠ none) ∧
      (handler.ServeHTTP std codec reg h NewRecorder r).Header.lookup "Content-Type"
        = some ["application/json; charset=utf-8"]) ∧
    (∀ e, codec.jsonMarshal (MapRequest std reg r h.body).1.1 = Except.error e →
      (handler.ServeHTTP std codec reg h NewRecorder r).Code = 500 ∧
      (handler.ServeHTTP std codec reg h NewRecorder r).Body = "") := by
  have hd := MapRequest_dict std reg r h.body
  constructor
  · intro data hser
    rw [hd] at hser
    rcases herr : (MapRequest std reg r h.body).1.2 with _ | err
    · simp [handler.ServeHTTP, hd, herr, hser, NewRecorder, headerSet, Multimap.set,
        List.lookup]
    · simp [handler.ServeHTTP, hd, herr, hser, NewRecorder, headerSet, headerAdd, addError,
        Multimap.set, List.lookup]
  · intro e hser
    rw [hd] at hser
    rcases herr : (MapRequest std reg r h.body).1.2 with _ | err <;>
      simp [handler.ServeHTTP, hd, herr, hser, NewRecorder, addError]

/-- Witness for C26: the test case `parameters` of `TestEchoHandlerError`, a form
whose body cannot be parsed. -/
theorem ServeHTTP_reports_witness :
    handler.ServeHTTP sampleStd sampleCodec ⟨[], []⟩ ⟨true⟩ NewRecorder
        (newRequest "POST" "" [("Content-Type", ["application/x-www-form-urlencoded"])] "%1")
      = ⟨400, [("X-Error", ["parse error,invalid URL escape"]),
          ("Content-Type", ["application/json; charset=utf-8"])],
        (Value.dict (some [("version", Value.str "HTTP/1.1"), ("method", Value.str "POST"),
          ("headers", Value.dict
            (some [("Content-Type", Value.str "application/x-www-form-urlencoded")])),
          ("path", Value.str "/")])).render⟩ ∧
    (handler.ServeHTTP sampleStd sampleCodec ⟨[], []⟩ ⟨true⟩ NewRecorder
        (newRequest "POST" "" [("Content-Type", ["application/x-www-form-urlencoded"])]
          "%1")).Code = 400 :=
  ⟨rfl, (((ServeHTTP_reports sampleStd sampleCodec ⟨[], []⟩ ⟨true⟩
      (newRequest "POST" "" [("Content-Type", ["application/x-www-form-urlencoded"])] "%1")).1
      _ rfl).2.1 (wrapError [GoError.plain "invalid URL escape"]) rfl).1⟩

/-! ## C28: the shape of `MapResponse` -/

theorem mapResponseBody_eq (P : String → Except GoError String) (cts : List contentType)
    (body : Bool) (r : Response) (out : Entries) (errs : List GoError) :
    mapResponseBody P cts body r out errs =
      ((if body then
          match (parseResponseBody P cts r).1.2 with
          | none => setSection out "body" (parseResponseBody P cts r).1.1
          | some _ => out
        else out),
       errs ++ (if body then (parseResponseBody P cts r).1.2.toList else []),
       (if body then (parseResponseBody P cts r).2 else r)) := by
  unfold mapResponseBody
  cases body
  · simp
  · rcases parseResponseBody P cts r with ⟨⟨v, _ | e⟩, r2⟩ <;> simp

theorem MapResponse_dict (std : Stdlib) (rsc : Option Multimap → List Cookie) (reg : Registry)
    (r : Response) (body : Bool) :
    (MapResponse std rsc reg r body).1.1
      = some (mapResponseBody std.mediaType reg.contentTypes body r (responseBase rsc r) []).1 := by
  unfold MapResponse
  dsimp only
  split <;> rfl

theorem MapResponse_error_eq (std : Stdlib) (rsc : Option Multimap → List Cookie)
    (reg : Registry) (r : Response) (body : Bool) :
    (MapResponse std rsc reg r body).1.2
      = if body then
          (parseResponseBody std.mediaType reg.contentTypes r).1.2.map fun e => wrapError [e]
        else none := by
  unfold MapResponse
  simp only [mapResponseBody_eq, List.nil_append]
  cases body
  · simp
  · rcases (parseResponseBody std.mediaType reg.contentTypes r).1.2 with _ | e <;> simp

theorem responseBase_get (rsc : Option Multimap → List Cookie) (r : Response) (k : String) :
    (responseBase rsc r).get k =
      if k = "cookies" then sectionValue (omitEmpty (mapCookies (rsc r.Header)))
      else if k = "headers" then sectionValue (omitEmpty (MapValues r.Header))
      else if k = "status" then some (Value.int r.StatusCode)
      else if k = "version" then some (Value.str r.Proto)
      else none := by
  unfold responseBase
  simp only [setSection_get, Entries.get_set, Entries.get]
  by_cases h3 : k = "cookies"
  · subst h3
    cases sectionValue (omitEmpty (mapCookies (rsc r.Header))) <;>
      cases sectionValue (omitEmpty (MapValues r.Header)) <;> simp
  · by_cases h4 : k = "headers"
    · subst h4
      cases sectionValue (omitEmpty (MapValues r.Header)) <;> simp
    · by_cases h5 : k = "status"
      · subst h5; simp
      · by_cases h6 : k = "version"
        · subst h6; simp
        · simp [h3, h4, h5, h6, Ne.symm h3, Ne.symm h4, Ne.symm h5, Ne.symm h6]

theorem responseEntries_get (P : String → Except GoError String) (cts : List contentType)
    (rsc : Option Multimap → List Cookie) (r : Response) (body : Bool) (k : String) :
    (mapResponseBody P cts body r (responseBase rsc r) []).1.get k =
      if k = "body" then
        (if body then
          match (parseResponseBody P cts r).1.2 with
          | none => sectionValue (parseResponseBody P cts r).1.1
          | some _ => none
        else none)
      else (responseBase rsc r).get k := by
  rw [mapResponseBody_eq]
  have hb : (responseBase rsc r).get "body" = none := by rw [responseBase_get]; simp
  cases body <;>
  rcases (parseResponseBody P cts r).1.2 with _ | eb <;>
  simp only [setSection_get, if_true, if_false, Bool.false_eq_true] <;>
  by_cases h2 : k = "body" <;>
  ((try subst h2); simp_all [Ne.symm];
    try (cases sectionValue (parseResponseBody P cts r).1.1 <;> simp))

/-- C28: `MapResponse` has the response shape. For every response, flag and
catalog its output always contains `version` and `status`, the protocol version
and the status code of the response; it never contains `method`, `path`,
`query`, `form` or `authorization`; it contains `headers` and `cookies` only
when they are non-empty; and it contains `body` only when the body flag is
true. With the flag false no error is reported. -/
theorem MapResponse_shape (std : Stdlib) (rsc : Option Multimap → List Cookie) (reg : Registry)
    (r : Response) (body : Bool) :
    ∃ out : Entries, (MapResponse std rsc reg r body).1.1 = some out ∧
      out.get "version" = some (Value.str r.Proto) ∧
      out.get "status" = some (Value.int r.StatusCode) ∧
      (∀ k, k ∈ ["method", "path", "query", "form", "authorization"] → out.get k = none) ∧
      out.get "headers" = sectionValue (omitEmpty (MapValues r.Header)) ∧
      out.get "cookies" = sectionValue (omitEmpty (mapCookies (rsc r.Header))) ∧
      (∀ k v, k ∈ ["headers", "cookies", "body"] → out.get k = some v →
        ∃ es : Entries, es ≠ [] ∧ v = Value.dict (some es)) ∧
      ((r.Header = none ∨ r.Header = some []) → out.get "headers" = none) ∧
      (rsc r.Header = [] → out.get "cookies" = none) ∧
      ((out.get "body").isSome = true → body = true) ∧
      (body = false → out.get "body" = none ∧ (MapResponse std rsc reg r body).1.2 = none) := by
  refine ⟨_, MapResponse_dict std rsc reg r body, ?_, ?_, ?_, ?_, ?_, ?_, ?_, ?_, ?_, ?_⟩
  · rw [responseEntries_get, responseBase_get]; simp
  · rw [responseEntries_get, responseBase_get]; simp
  · intro k hk
    rw [responseEntries_get, responseBase_get]
    simp only [List.mem_cons, List.mem_singleton, List.not_mem_nil, or_false] at hk
    rcases hk with rfl | rfl | rfl | rfl | rfl <;> simp
  · rw [responseEntries_get, responseBase_get]; simp
  · rw [responseEntries_get, responseBase_get]; simp
  · intro k v hk hv
    rw [responseEntries_get, responseBase_get] at hv
    have hsec : ∀ d : Dict, sectionValue (omitEmpty d) = some v →
        ∃ es : Entries, es ≠ [] ∧ v = Value.dict (some es) := by
      intro d hd
      obtain ⟨es, h1, h2⟩ := sectionValue_eq_some _ v hd
      exact ⟨es, omitEmpty_eq_some d es h1, h2⟩
    simp only [List.mem_cons, List.mem_singleton, List.not_mem_nil, or_false] at hk
    rcases hk with rfl | rfl | rfl
    · simp only [String.reduceEq, if_false, if_true] at hv
      exact hsec _ hv
    · simp only [String.reduceEq, if_false, if_true] at hv
      exact hsec _ hv
    · simp only [if_true] at hv
      split at hv
      · rw [parseResponseBody_result] at hv
        cases hE : r.Body.err with
        | some e =>
          rw [hE] at hv
          simp at hv
        | none =>
          rw [hE] at hv
          dsimp only at hv
          rcases hp : parseContent std.mediaType reg.contentTypes
              (headerGet r.Header "Content-Type") r.Body.data with ⟨o, _ | e⟩
          · rw [hp] at hv
            simp only at hv
            exact hsec _ hv
          · rw [hp] at hv
            simp at hv
      · simp at hv
  · intro h
    rw [responseEntries_get, responseBase_get]
    rcases h with h | h <;> simp [h, MapValues, omitEmpty, sectionValue]
  · intro h
    rw [responseEntries_get, responseBase_get]
    simp [h, mapCookies, omitEmpty, sectionValue]
  · intro h
    rw [responseEntries_get] at h
    cases body
    · simp at h
    · rfl
  · intro h
    subst h
    refine ⟨?_, ?_⟩
    · rw [responseEntries_get]; simp
    · rw [MapResponse_error_eq]; simp

/-- Witness for C28: the test cases `minimal` and `normal` of `TestMapResponse`. -/
theorem MapResponse_shape_witness :
    (MapResponse sampleStd sampleReadCookies ⟨[], []⟩
        ⟨"HTTP/1.1", 200, some [], ⟨"", none⟩⟩ false).1
      = (some [("version", Value.str "HTTP/1.1"), ("status", Value.int 200)], none) ∧
    (MapResponse sampleStd sampleReadCookies ⟨[⟨"test", "x", ParseJSON sampleCodec⟩], []⟩
        ⟨"HTTP/1.1", 200, some [("Content-Type", ["test/x"])],
          ⟨"\x7b\"foo\":\"bar\"\x7d", none⟩⟩ true).1
      = (some [("version", Value.str "HTTP/1.1"), ("status", Value.int 200),
          ("headers", Value.dict (some [("Content-Type", Value.str "test/x")])),
          ("body", Value.dict (some [("foo", Value.str "bar")]))], none) ∧
    (MapResponse sampleStd sampleReadCookies ⟨[], []⟩
        ⟨"HTTP/1.1", 200, some [("Content-Type", ["?"])], ⟨"Hi", none⟩⟩ false).1.2 = none := by
  obtain ⟨out, _, _, _, _, _, _, _, _, _, _, h⟩ := MapResponse_shape sampleStd sampleReadCookies
    ⟨[], []⟩ ⟨"HTTP/1.1", 200, some [("Content-Type", ["?"])], ⟨"Hi", none⟩⟩ false
  exact ⟨rfl, rfl, (h rfl).2⟩

/-! ## C31: lookups and registrations running concurrently -/

theorem consistent_start {α : Type} (cat : List α) (entry : α) :
    Consistent cat entry (System.start cat) := by
  refine ⟨Or.inl rfl, fun _ => rfl, ?_, ?_, ?_⟩ <;> intro h <;> simp [System.start] at h

theorem consistent_step {α : Type} (cat : List α) (entry : α) (s : System α) (who : Bool)
    (h : Consistent cat entry s) : Consistent cat entry (System.step entry s who) := by
  rcases s with ⟨⟨lk, snap⟩, ⟨rpc, rv⟩, ⟨lpc, lv⟩⟩
  simp only [Consistent] at h ⊢
  obtain ⟨h1, h2, h3, h4, h5⟩ := h
  cases who
  · rcases lpc with _ | _ | _ | n
    · cases lk
      · simp only [System.step, lookupStep, Bool.false_eq_true, if_false]
        exact ⟨h1, h2, h3, h4, fun hc => absurd hc (by decide)⟩
      · simp only [System.step, lookupStep, Bool.false_eq_true, if_false, if_true]
        exact ⟨h1, h2, h3, h4, h5⟩
    · simp only [System.step, lookupStep, Bool.false_eq_true, if_false]
      exact ⟨h1, h2, h3, h4, fun _ => h1⟩
    · simp only [System.step, lookupStep, Bool.false_eq_true, if_false]
      exact ⟨h1, h2, h3, h4, fun _ => h5 (by decide)⟩
    · simp only [System.step, lookupStep, Bool.false_eq_true, if_false]
      exact ⟨h1, h2, h3, h4, h5⟩
  · rcases rpc with _ | _ | _ | _ | n
    · cases lk
      · simp only [System.step, registerStep, Bool.false_eq_true, if_false, if_true]
        exact ⟨h1, fun _ => h2 (by decide), fun hc => absurd hc (by decide),
          fun hc => absurd hc (by decide), h5⟩
      · simp only [System.step, registerStep, if_true]
        exact ⟨h1, h2, h3, h4, h5⟩
    · simp only [System.step, registerStep, if_true]
      have hsnap := h2 (by decide)
      exact ⟨h1, fun _ => hsnap, fun _ => hsnap, fun hc => absurd hc (by decide), h5⟩
    · simp only [System.step, registerStep, if_true]
      have hv : rv = cat := h3 rfl
      exact ⟨Or.inr (by rw [hv]), fun hc => absurd hc (by decide),
        fun hc => absurd hc (by decide), fun _ => by rw [hv], h5⟩
    · simp only [System.step, registerStep, if_true]
      have hsnap := h4 (by decide)
      exact ⟨h1, fun hc => absurd hc (by decide), fun hc => absurd hc (by decide),
        fun _ => hsnap, h5⟩
    · simp only [System.step, registerStep, if_true]
      exact ⟨h1, h2, h3, h4, h5⟩

theorem consistent_run {α : Type} (cat : List α) (entry : α) (schedule : List Bool)
    (s : System α) (h : Consistent cat entry s) :
    Consistent cat entry (System.run entry schedule s) := by
  induction schedule generalizing s with
  | nil => exact h
  | cons who rest ih =>
    rw [System.run, List.foldl_cons]
    exact ih _ (consistent_step cat entry s who h)

/-- C31, counterexample: a registration has taken the mutex of the catalog. The
lookup, whose first step is to take the same mutex, cannot step, and it makes
no progress while the registration loads and stores; it steps again once the
registration has unlocked. -/
theorem lookup_waits_for_registration :
    lookupStep (System.run "b" [true] (System.start ["a"])).shared
        (System.run "b" [true] (System.start ["a"])).look = none ∧
    (System.run "b" [true, false, true, false, true, false] (System.start ["a"])).look.pc = 0 ∧
    (System.run "b" [true, false, true, false, true, false] (System.start ["a"])).reg.pc = 3 ∧
    (System.run "b" [true, true, true, true, false, false] (System.start ["a"])).look
      = ⟨2, ["a", "b"]⟩ ∧
    (System.run "b" [false, true, true, true, false, false] (System.start ["a"])).look
      = ⟨3, ["a"]⟩ :=
  ⟨rfl, rfl, rfl, rfl, rfl⟩

/-- C31, amended: lookups read immutable snapshots, but not without the mutex.
The first step of `parseContent` and of `parseAuth` takes the registration
mutex, so a lookup running concurrently with a registration waits exactly
while the mutex is held. For every interleaving of a registration and a lookup
the slice the lookup has loaded is either the catalog before the registration
or the catalog after it, never a partially appended list, and so is the
published slice at every moment. -/
theorem lookup_sees_whole_catalog {α : Type} (cat : List α) (entry : α)
    (schedule : List Bool) :
    (2 ≤ (System.run entry schedule (System.start cat)).look.pc →
      (System.run entry schedule (System.start cat)).look.values = cat ∨
      (System.run entry schedule (System.start cat)).look.values = cat ++ [entry]) ∧
    ((System.run entry schedule (System.start cat)).shared.snapshot = cat ∨
      (System.run entry schedule (System.start cat)).shared.snapshot = cat ++ [entry]) ∧
    (∀ (sh : Shared α) (loc : Local α), loc.pc = 0 →
      (lookupStep sh loc = none ↔ sh.locked = true)) ∧
    (∀ (sh : Shared α) (loc : Local α), loc.pc = 0 → sh.locked = false →
      lookupStep sh loc = some (⟨true, sh.snapshot⟩, ⟨1, loc.values⟩)) ∧
    (∀ (sh : Shared α) (loc : Local α), loc.pc = 1 →
      lookupStep sh loc = some (sh, ⟨2, sh.snapshot⟩)) := by
  have h := consistent_run cat entry schedule (System.start cat) (consistent_start cat entry)
  refine ⟨h.2.2.2.2, h.1, ?_, ?_, ?_⟩
  · intro sh loc hpc
    unfold lookupStep
    rw [hpc]
    cases sh.locked <;> simp
  · intro sh loc hpc hfree
    unfold lookupStep
    rw [hpc]
    simp [hfree]
  · intro sh loc hpc
    unfold lookupStep
    rw [hpc]

/-- Witness for C31, amended: an interleaving in which the lookup loads between
the registration's load and its store. -/
theorem lookup_sees_whole_catalog_witness :
    2 ≤ (System.run "b" [false, false, false, true, true, true]
        (System.start ["a"])).look.pc ∧
    ((System.run "b" [false, false, false, true, true, true]
        (System.start ["a"])).look.values = ["a"] ∨
     (System.run "b" [false, false, false, true, true, true]
        (System.start ["a"])).look.values = ["a"] ++ ["b"]) :=
  ⟨by decide,
   (lookup_sees_whole_catalog ["a"] "b" [false, false, false, true, true, true]).1 (by decide)⟩

/-! ## C32: the permissive subtype match -/

/-- C32: the subtype match is permissive beyond `+`-delimited structured
suffixes. The requested subtype `nonjson` is not the registered subtype `json`
and is not `json` with a `+`-separated prefix or suffix added, yet under the
same primary type the registered parser is a candidate, is invoked and decides
the lookup; the same holds for every requested subtype that ends or begins
with the registered one. -/
theorem subtype_match_permissive (m s x content : String) (p : ParserFunc) :
    (contentType.mk m s p).candidate m (x ++ s) = true ∧
    (contentType.mk m s p).candidate m (s ++ x) = true ∧
    parseContentLoop [⟨m, s, p⟩] m (x ++ s) content = p content ∧
    "nonjson" ≠ "json" ∧
    (¬ ∃ y : String, "nonjson" = y ++ "+" ++ "json") ∧
    (¬ ∃ y : String, "nonjson" = "json" ++ "+" ++ y) ∧
    (contentType.mk "application" "json" dummmyParser).candidate "application" "nonjson" = true ∧
    parseContent sampleMediaType [⟨"application", "json", dummmyParser⟩]
        "application/nonjson" "Hi"
      = (some [("dummy", Value.str "Hi")], none) := by
  have hplus : ∀ z : String, "nonjson" = z → '+' ∉ z.data := by
    intro z hz
    rw [← hz]
    decide
  have h1 : (contentType.mk m s p).candidate m (x ++ s) = true := by
    simp only [contentType.candidate, Bool.and_eq_true, Bool.or_eq_true, decide_eq_true_eq,
      hasPrefix_iff, hasSuffix_iff]
    exact ⟨trivial, Or.inr ⟨x, rfl⟩⟩
  have h2 : (contentType.mk m s p).candidate m (s ++ x) = true := by
    simp only [contentType.candidate, Bool.and_eq_true, Bool.or_eq_true, decide_eq_true_eq,
      hasPrefix_iff, hasSuffix_iff]
    exact ⟨trivial, Or.inl ⟨x, rfl⟩⟩
  refine ⟨h1, h2, parseContentLoop_single _ m (x ++ s) content h1, by decide, ?_, ?_,
    by decide, rfl⟩
  · rintro ⟨y, hy⟩
    exact hplus _ hy (by simp [String.data_append])
  · rintro ⟨y, hy⟩
    exact hplus _ hy (by simp [String.data_append])

/-! ## C33: `wrapReader` -/

/-- C33: `wrapReader` is a round trip on readable streams. For every stream that
reads to its end without error it returns no error, the full content of the
stream as data, and a fresh stream whose content is exactly those bytes; for a
stream whose read fails it returns the wrapped error, and neither a stream nor
data. -/
theorem wrapReader_round_trip (r : Reader) :
    (r.err = none →
      wrapReader r = Except.ok (⟨r.data, none⟩, r.data) ∧
      ∃ fresh data, wrapReader r = Except.ok (fresh, data) ∧ data = (ReadAll r).1 ∧
        ReadAll fresh = (data, none)) ∧
    (∀ e, r.err = some e → wrapReader r = Except.error (wrapError [e])) ∧
    wrapReader ⟨"dummy", none⟩ = Except.ok (⟨"dummy", none⟩, "dummy") ∧
    wrapReader ⟨String.singleton (Char.ofNat 0), some errDummy⟩
      = Except.error (wrapError [errDummy]) := by
  refine ⟨?_, ?_, rfl, rfl⟩
  · intro h
    have hw : wrapReader r = Except.ok (⟨r.data, none⟩, r.data) := by
      simp [wrapReader, ReadAll, h]
    exact ⟨hw, _, _, hw, rfl, rfl⟩
  · intro e h
    simp [wrapReader, ReadAll, h]

/-- Witness for C33: the test cases `normal` and `error` of `Test_wrapReader`. -/
theorem wrapReader_round_trip_witness :
    (Reader.mk "dummy" none).err = none ∧
    wrapReader ⟨"dummy", none⟩ = Except.ok (⟨"dummy", none⟩, "dummy") ∧
    wrapReader ⟨String.singleton (Char.ofNat 0), some errDummy⟩
      = Except.error (wrapError [errDummy]) :=
  ⟨rfl, ((wrapReader_round_trip ⟨"dummy", none⟩).1 rfl).1,
   (wrapReader_round_trip ⟨String.singleton (Char.ofNat 0), some errDummy⟩).2.1 errDummy rfl⟩

/-! ## C34: `mapCookies` -/

theorem foldl_cookies_get (cookies : List Cookie) (init : Entries) (k : String) :
    (cookies.foldl (fun out c => Entries.set out c.Name (Value.str c.Value)) init).get k
      = match cookies.reverse.find? (fun c => decide (c.Name = k)) with
        | some c => some (Value.str c.Value)
        | none => init.get k := by
  induction cookies generalizing init with
  | nil => rfl
  | cons c rest ih =>
    rw [List.foldl_cons, ih, List.reverse_cons, List.find?_append, Entries.get_set]
    cases rest.reverse.find? (fun c => decide (c.Name = k)) with
    | some d => rfl
    | none =>
      by_cases hk : c.Name = k
      · simp [hk]
      · simp [hk]

theorem Entries.get_isSome_iff (es : Entries) (k : String) :
    (es.get k).isSome = true ↔ k ∈ es.map Prod.fst := by
  induction es with
  | nil => simp [Entries.get]
  | cons e es ih =>
    obtain ⟨k0, v0⟩ := e
    by_cases hk : k0 = k
    · simp [Entries.get, hk]
    · simp [Entries.get, hk, ih, Ne.symm hk]

theorem mapCookies_some (cookies : List Cookie) :
    mapCookies cookies
      = some (cookies.foldl (fun out c => Entries.set out c.Name (Value.str c.Value)) []) := by
  unfold mapCookies
  cases cookies with
  | nil => rfl
  | cons c rest => simp

/-- C34: `mapCookies` flattens cookies to a scalar map with last-wins on
duplicates. For every cookie list the keys of the output are exactly the names
occurring in the list, each key maps to the value of the last cookie in the
list carrying that name, and the empty list gives an empty, non-nil dict. -/
theorem mapCookies_last_wins (cookies : List Cookie) (k : String) :
    ∃ out : Entries, mapCookies cookies = some out ∧
      out.get k = (cookies.reverse.find? fun c => decide (c.Name = k)).map
        (fun c => Value.str c.Value) ∧
      (k ∈ out.map Prod.fst ↔ k ∈ cookies.map Cookie.Name) ∧
      ((out.get k).isSome = true ↔ k ∈ cookies.map Cookie.Name) ∧
      (∀ pre c post, cookies = pre ++ c :: post → c.Name = k →
        (∀ d ∈ post, d.Name ≠ k) → out.get k = some (Value.str c.Value)) ∧
      mapCookies [] = some [] := by
  have hget : (cookies.foldl (fun out c => Entries.set out c.Name (Value.str c.Value)) []).get k
      = (cookies.reverse.find? fun c => decide (c.Name = k)).map
        (fun c => Value.str c.Value) := by
    rw [foldl_cookies_get]
    cases cookies.reverse.find? (fun c => decide (c.Name = k)) <;> rfl
  have hsome : ((cookies.foldl (fun out c => Entries.set out c.Name (Value.str c.Value))
      []).get k).isSome = true ↔ k ∈ cookies.map Cookie.Name := by
    rw [hget, Option.isSome_map', List.find?_isSome]
    simp only [List.mem_reverse, decide_eq_true_eq, List.mem_map]
  refine ⟨_, mapCookies_some cookies, hget, ?_, hsome, ?_, rfl⟩
  · rw [← Entries.get_isSome_iff]
    exact hsome
  · intro pre c post hcs hc hpost
    rw [hget, hcs, List.reverse_append, List.reverse_cons, List.find?_append, List.find?_append]
    have h1 : post.reverse.find? (fun c => decide (c.Name = k)) = none := by
      rw [List.find?_eq_none]
      intro d hd
      simpa using hpost d (List.mem_reverse.1 hd)
    simp [h1, hc]

/-- Witness for C34: two cookies of the same name around a third one. -/
theorem mapCookies_last_wins_witness :
    mapCookies [⟨"foo", "bar"⟩, ⟨"x", "y"⟩, ⟨"foo", "baz"⟩]
      = some [("foo", Value.str "baz"), ("x", Value.str "y")] ∧
    ∃ out : Entries, mapCookies [⟨"foo", "bar"⟩, ⟨"x", "y"⟩, ⟨"foo", "baz"⟩] = some out ∧
      out.get "foo" = some (Value.str "baz") := by
  obtain ⟨out, h1, _, _, _, h5, _⟩ :=
    mapCookies_last_wins [⟨"foo", "bar"⟩, ⟨"x", "y"⟩, ⟨"foo", "baz"⟩] "foo"
  exact ⟨rfl, out, h1,
    h5 [⟨"foo", "bar"⟩, ⟨"x", "y"⟩] ⟨"foo", "baz"⟩ [] rfl rfl (by simp)⟩

end Yare
